import Mathlib

/-!
Verification of the `vcf_scanner` incremental VCF parser.

This file gives a shallow embedding of the tokenizer
(`src/include/vcf_scanner/impl/vcf_tokenizer.hh`) and of the record state
machine (`src/include/vcf_scanner/vcf_scanner.hh`), and proves the claims
about them.  Bytes are modelled as `Char`, buffers and tokens as `List Char`,
the `int` terminator as `Int` (with `EOF = -1` and otherwise the byte value),
and machine integers as `Nat` with explicit bounds against `UINT_MAX`.
-/

set_option maxHeartbeats 1000000

/-- `EOF` sentinel stored in the `int terminator` field. -/
def CharEOF : Int := -1

/-- `UINT_MAX` for a 32-bit `unsigned`. -/
def UINT_MAX : Nat := 4294967295

/-- State of `class VCF_tokenizer`.  `buf` models the non-owning view
`(current_ptr, remaining_size)`; the other fields are named as in the
source. -/
structure VCF_tokenizer where
  buf : List Char
  eof_reached : Bool
  accumulating : Bool
  accumulator : List Char
  token : List Char
  terminator : Int
  line_number : Nat
deriving Repr, DecidableEq

namespace VCF_tokenizer

/-- A fresh `VCF_tokenizer` (constructor + default member initializers;
`terminator` and the buffer view are uninitialized in C++ and get inert
defaults here). -/
def init : VCF_tokenizer :=
  { buf := [], eof_reached := false, accumulating := false,
    accumulator := [], token := [], terminator := 0, line_number := 1 }

/-- `set_new_buffer(buffer, buffer_size)`:
`current_ptr = buffer; eof_reached = (remaining_size = buffer_size) == 0;`. -/
def set_new_buffer (tk : VCF_tokenizer) (b : List Char) : VCF_tokenizer :=
  { tk with buf := b, eof_reached := b.isEmpty }

/-- `buffer_is_empty()`. -/
def buffer_is_empty (tk : VCF_tokenizer) : Bool :=
  tk.buf.isEmpty

/-- `at_eof()`. -/
def at_eof (tk : VCF_tokenizer) : Bool :=
  tk.eof_reached

/-- `get_line_number()`. -/
def get_line_number (tk : VCF_tokenizer) : Nat :=
  tk.line_number

/-- `get_terminator()`. -/
def get_terminator (tk : VCF_tokenizer) : Int :=
  tk.terminator

/-- `get_token()`. -/
def get_token (tk : VCF_tokenizer) : List Char :=
  tk.token

/-- `find_char_from_set(buffer, buffer_size, character_set)`: index of the
first byte of the view that belongs to the character class, if any.  The
source returns a pointer into the buffer; we return its offset. -/
def find_char_from_set (cls : Char → Bool) : List Char → Option Nat
  | [] => none
  | c :: rest =>
      if cls c then some 0 else (find_char_from_set cls rest).map (· + 1)

/-- The `{\n}` class used by `find_newline()`. -/
def newline_cls (c : Char) : Bool := c = '\n'

/-- The `{\n,\t}` class (`newline_or_tab`). -/
def newline_or_tab (c : Char) : Bool := c = '\n' || c = '\t'

/-- The `{\n,\t,=}` class (`newline_or_tab_or_equals`). -/
def newline_or_tab_or_equals (c : Char) : Bool := c = '\n' || c = '\t' || c = '='

/-- The `{\n,\t,;}` class (`newline_or_tab_or_semicolon`). -/
def newline_or_tab_or_semicolon (c : Char) : Bool := c = '\n' || c = '\t' || c = ';'

/-- The `{\n,\t,,}` class (`newline_or_tab_or_comma`). -/
def newline_or_tab_or_comma (c : Char) : Bool := c = '\n' || c = '\t' || c = ','

/-- The `{\n,\t,:}` class (`newline_or_tab_or_colon`). -/
def newline_or_tab_or_colon (c : Char) : Bool := c = '\n' || c = '\t' || c = ':'

/-- `set_terminator(term)` for a byte terminator. -/
def set_terminator_byte (tk : VCF_tokenizer) (c : Char) : VCF_tokenizer :=
  { tk with terminator := (c.toNat : Int) }

/-- `set_terminator(EOF)`. -/
def set_terminator_eof (tk : VCF_tokenizer) : VCF_tokenizer :=
  { tk with terminator := CharEOF }

/-- `set_terminator_and_inc_line_num_if_newline(term)`. -/
def set_terminator_and_inc_line_num_if_newline
    (tk : VCF_tokenizer) (c : Char) : VCF_tokenizer :=
  let tk := tk.set_terminator_byte c
  if c = '\n' then { tk with line_number := tk.line_number + 1 } else tk

/-- `prepare_token_or_accumulate(end_of_token)`.  `end_of_token` is the
result of a `find_*` call: `some i` is a pointer to offset `i` of the view,
`none` is `nullptr`.  Returns the `bool` result and the updated state. -/
def prepare_token_or_accumulate (tk : VCF_tokenizer) (end_of_token : Option Nat) :
    Bool × VCF_tokenizer :=
  match end_of_token with
  | none =>
      if tk.eof_reached = false then
        if tk.accumulating then
          (false, { tk with accumulator := tk.accumulator ++ tk.buf })
        else
          (false, { tk with accumulating := true, accumulator := tk.buf })
      else
        -- End of file has been reached; the accumulated bytes are the
        -- last token.
        if tk.accumulating = false then
          (true, { tk.set_terminator_eof with token := [] })
        else
          (true, { tk.set_terminator_eof with
                   accumulating := false
                   token := tk.accumulator })
  | some i =>
      let d := tk.buf.getD i ' '
      let tk1 := tk.set_terminator_and_inc_line_num_if_newline d
      -- token_len = end_of_token - current_ptr
      let token_len := i
      if tk.accumulating = false then
        let tok :=
          if 0 < token_len then
            if d = '\n' && tk.buf.getD (i - 1) ' ' = '\r' then
              tk.buf.take (token_len - 1)
            else
              tk.buf.take token_len
          else []
        (true, { tk1 with token := tok, buf := tk.buf.drop (i + 1) })
      else
        let acc :=
          if 0 < token_len then
            if d = '\n' && tk.buf.getD (i - 1) ' ' = '\r' then
              tk.accumulator ++ tk.buf.take (token_len - 1)
            else
              tk.accumulator ++ tk.buf.take token_len
          else
            if d = '\n' && tk.accumulator.getLast? = some '\r' then
              tk.accumulator.dropLast
            else
              tk.accumulator
        (true, { tk1 with
                 accumulating := false
                 accumulator := acc
                 token := acc
                 buf := tk.buf.drop (i + 1) })

/-- `skip_token(end_of_token)`. -/
def skip_token (tk : VCF_tokenizer) (end_of_token : Option Nat) :
    Bool × VCF_tokenizer :=
  let tk := { tk with accumulating := false }
  match end_of_token with
  | none =>
      if tk.eof_reached = false then (false, tk)
      else (true, tk.set_terminator_eof)
  | some i =>
      let d := tk.buf.getD i ' '
      let tk1 := tk.set_terminator_and_inc_line_num_if_newline d
      (true, { tk1 with buf := tk.buf.drop (i + 1) })

/-- Result type of `parse_uint`. -/
inductive Int_parsing_result where
  | end_of_number
  | integer_overflow
  | end_of_buffer
deriving Repr, DecidableEq

/-- The decimal value of `c` if `(unsigned) c - '0' <= 9`, otherwise `none`
(the unsigned wrap-around makes every non-digit compare `> 9`). -/
def digit? (c : Char) : Option Nat :=
  if 48 ≤ c.toNat ∧ c.toNat ≤ 57 then some (c.toNat - 48) else none

/-- The inner `do { } while (--remaining_size > 0)` loop of `parse_uint`,
lifted to the buffer list.  Returns the result, the updated `*number` and
`*number_len`, the non-digit byte that was consumed (for `end_of_number`),
and the remaining view. -/
def parse_uint_list :
    List Char → Nat → Nat →
      Int_parsing_result × Nat × Nat × Option Char × List Char
  | [], number, number_len => (.end_of_buffer, number, number_len, none, [])
  | c :: rest, number, number_len =>
      match digit? c with
      | none => (.end_of_number, number, number_len, some c, rest)
      | some d =>
          if number > UINT_MAX / 10 ∨ (number = UINT_MAX / 10 ∧ d > UINT_MAX % 10) then
            (.integer_overflow, number, number_len, none, c :: rest)
          else
            parse_uint_list rest (number * 10 + d) (number_len + 1)

/-- `parse_uint(number, number_len)`.  The `unsigned` accumulators are
passed and returned explicitly. -/
def parse_uint (tk : VCF_tokenizer) (number number_len : Nat) :
    Int_parsing_result × Nat × Nat × VCF_tokenizer :=
  if tk.buf.isEmpty then
    if tk.eof_reached then
      (.end_of_number, number, number_len, tk.set_terminator_eof)
    else
      (.end_of_buffer, number, number_len, tk)
  else
    match parse_uint_list tk.buf number number_len with
    | (.end_of_number, n, len, some c, rest) =>
        (.end_of_number, n, len,
          { tk.set_terminator_and_inc_line_num_if_newline c with buf := rest })
    | (.end_of_number, n, len, none, rest) =>
        -- unreachable: `end_of_number` always carries the non-digit byte
        (.end_of_number, n, len, { tk with buf := rest })
    | (.integer_overflow, n, len, _, rest) =>
        (.integer_overflow, n, len, { tk with buf := rest })
    | (.end_of_buffer, n, len, _, _) =>
        (.end_of_buffer, n, len, { tk with buf := [] })

/-- `get_token_as_uint(number)`. -/
def get_token_as_uint (tk : VCF_tokenizer) : Option Nat :=
  let rec go : List Char → Nat → Option Nat
    | [], n => some n
    | c :: rest, n =>
        match digit? c with
        | none => none
        | some d =>
            if n > UINT_MAX / 10 ∨ (n = UINT_MAX / 10 ∧ d > UINT_MAX % 10) then
              none
            else
              go rest (n * 10 + d)
  if tk.token.isEmpty then none else go tk.token 0

/-- `token_is_dot()`. -/
def token_is_dot (tk : VCF_tokenizer) : Bool :=
  tk.token.isEmpty || (tk.token.length = 1 && tk.token.headD ' ' = '.')

/-- `at_eol()`. -/
def at_eol (tk : VCF_tokenizer) : Bool :=
  tk.terminator = (10 : Int) || tk.terminator = CharEOF

/-- `get_key_value(key, value)` with the default delimiter `'='`:
splits the current token at the first `'='`. -/
def get_key_value (tk : VCF_tokenizer) : Option (List Char × List Char) :=
  match find_char_from_set (fun c => c = '=') tk.token with
  | none => none
  | some i => some (tk.token.take i, tk.token.drop (i + 1))

theorem find_char_from_set_lt (cls : Char → Bool) :
    ∀ (l : List Char) (i : Nat), find_char_from_set cls l = some i → i < l.length := by
  intro l
  induction l with
  | nil => intro i h; simp [find_char_from_set] at h
  | cons c rest ih =>
      intro i h
      simp only [find_char_from_set] at h
      split at h
      · simp only [Option.some.injEq] at h
        simp only [List.length_cons]
        omega
      · rw [Option.map_eq_some'] at h
        obtain ⟨j, hj, hji⟩ := h
        have := ih j hj
        simp only [List.length_cons]
        omega

theorem prepare_true_of_find_none (tk : VCF_tokenizer) (cls : Char → Bool)
    (hf : find_char_from_set cls tk.buf = none)
    (h1 : (tk.prepare_token_or_accumulate (find_char_from_set cls tk.buf)).1 = true) :
    (tk.prepare_token_or_accumulate (find_char_from_set cls tk.buf)).2.terminator = CharEOF := by
  rw [hf] at h1 ⊢
  by_cases he : tk.eof_reached = false <;>
    by_cases ha : tk.accumulating <;>
      simp [prepare_token_or_accumulate, set_terminator_eof, he, ha] at h1 ⊢

theorem prepare_some_buf (tk : VCF_tokenizer) (i : Nat) :
    (tk.prepare_token_or_accumulate (some i)).2.buf = tk.buf.drop (i + 1) := by
  by_cases ha : tk.accumulating <;>
    simp [prepare_token_or_accumulate, set_terminator_and_inc_line_num_if_newline,
      set_terminator_byte, ha]

/-- A completed `prepare_token_or_accumulate` whose terminator is not `EOF`
consumed at least the delimiter byte: the view strictly shrinks. -/
theorem prepare_find_decrease (tk : VCF_tokenizer) (cls : Char → Bool)
    (h1 : (tk.prepare_token_or_accumulate (find_char_from_set cls tk.buf)).1 = true)
    (h2 : (tk.prepare_token_or_accumulate (find_char_from_set cls tk.buf)).2.terminator ≠ CharEOF) :
    (tk.prepare_token_or_accumulate (find_char_from_set cls tk.buf)).2.buf.length
      < tk.buf.length := by
  cases hf : find_char_from_set cls tk.buf with
  | none => exact absurd (prepare_true_of_find_none tk cls hf h1) h2
  | some i =>
      have hi := find_char_from_set_lt cls tk.buf i hf
      rw [prepare_some_buf]
      simp only [List.length_drop]
      omega

theorem skip_true_of_find_none (tk : VCF_tokenizer) (cls : Char → Bool)
    (hf : find_char_from_set cls tk.buf = none)
    (h1 : (tk.skip_token (find_char_from_set cls tk.buf)).1 = true) :
    (tk.skip_token (find_char_from_set cls tk.buf)).2.terminator = CharEOF := by
  rw [hf] at h1 ⊢
  by_cases he : tk.eof_reached = false <;>
    simp [skip_token, set_terminator_eof, he] at h1 ⊢

theorem skip_some_buf (tk : VCF_tokenizer) (i : Nat) :
    (tk.skip_token (some i)).2.buf = tk.buf.drop (i + 1) := by
  simp [skip_token, set_terminator_and_inc_line_num_if_newline, set_terminator_byte]

/-- A completed `skip_token` whose terminator is not `EOF` strictly shrinks
the view. -/
theorem skip_find_decrease (tk : VCF_tokenizer) (cls : Char → Bool)
    (h1 : (tk.skip_token (find_char_from_set cls tk.buf)).1 = true)
    (h2 : (tk.skip_token (find_char_from_set cls tk.buf)).2.terminator ≠ CharEOF) :
    (tk.skip_token (find_char_from_set cls tk.buf)).2.buf.length < tk.buf.length := by
  cases hf : find_char_from_set cls tk.buf with
  | none => exact absurd (skip_true_of_find_none tk cls hf h1) h2
  | some i =>
      have hi := find_char_from_set_lt cls tk.buf i hf
      rw [skip_some_buf]
      simp only [List.length_drop]
      omega

theorem at_eol_false_ne_eof (tk : VCF_tokenizer) (h : tk.at_eol = false) :
    tk.terminator ≠ CharEOF := by
  simp [at_eol] at h
  exact h.2

end VCF_tokenizer

/-! ### The record state machine (`class VCF_scanner`) -/

/-- Values of the `enum Parsing_event`. -/
inductive Parsing_event where
  | need_more_data
  | ok
  | ok_with_warnings
  | error
deriving Repr, DecidableEq

/-! The `enum State` constants.  The C++ member `int state` mixes them with
integer arithmetic and ordering, so they are plain `Nat` values here. -/

def parsing_fileformat : Nat := 0
def parsing_metainfo_key : Nat := 1
def parsing_metainfo_value : Nat := 2
def parsing_header_line_columns : Nat := 3
def parsing_sample_ids : Nat := 4
def parsing_chrom : Nat := 5
def parsing_pos : Nat := 6
def parsing_id : Nat := 7
def parsing_ref : Nat := 8
def parsing_alt : Nat := 9
def parsing_quality : Nat := 10
def parsing_filter : Nat := 11
def parsing_info_field : Nat := 12
def parsing_genotype_format : Nat := 13
def parsing_genotypes : Nat := 14
def end_of_data_line : Nat := 15
def skipping_to_next_line : Nat := 16
def peeking_beyond_newline : Nat := 17

def number_of_mandatory_columns : Nat := 8

/-- The fixed column-name table of `get_header_line_column`. -/
def get_header_line_column (field_index : Nat) : String :=
  ["CHROM", "POS", "ID", "REF", "ALT", "QUAL", "FILTER", "INFO",
   "FORMAT", "GENOTYPE"].getD field_index ""

/-- `enum Data_type`. -/
inductive Data_type where
  | vcf_integer
  | vcf_float
  | vcf_flag
  | vcf_character
  | vcf_string
  | vcf_gt
deriving Repr, DecidableEq

/-- One slot of the `genotype_values` vector.  The C++ struct stores a union
of output pointers; `captured` models whether the pointer member is non-null
(`memset` to zero models as `captured = false`, `data_type = vcf_integer`). -/
structure Genotype_value where
  data_type : Data_type
  captured : Bool
deriving Repr, DecidableEq

instance : Inhabited Genotype_value :=
  ⟨{ data_type := .vcf_integer, captured := false }⟩

/-- State of `class VCF_scanner` (header fields of the owned `VCF_header`
are inlined with a `header_` prefix where needed). -/
structure VCF_scanner where
  tokenizer : VCF_tokenizer
  state : Nat
  fields_to_skip : Nat
  current_meta_info_key : List Char
  header_line_column_ok : Nat
  error_message : String
  header_file_format_version : List Char
  header_meta_info : List (List Char × List (List Char))
  genotype_info_present : Bool
  sample_ids : List (List Char)
  next_list_index : Nat
  number_len : Nat
  chrom : List Char
  pos : Nat
  ids : List (List Char)
  ref : List Char
  alts : List (List Char)
  alleles_parsed : Bool
  quality : List Char
  filters : List (List Char)
  info : List (List Char)
  format_keys : List (List Char)
  genotype_key_positions_number : Nat
  genotype_key_positions_gt : Nat
  genotype_other_keys : List (List Char × Nat)
  genotype_values : List Genotype_value
  current_genotype_field_index : Nat
  current_genotype_value_index : Nat
  gt : List Int
  phased_gt : Bool
deriving Repr, DecidableEq

namespace VCF_scanner

/-- A freshly constructed scanner (members with C++ default initializers;
uninitialized scalars get inert defaults, they are assigned before use). -/
def init : VCF_scanner :=
  { tokenizer := VCF_tokenizer.init, state := parsing_fileformat,
    fields_to_skip := 0, current_meta_info_key := [],
    header_line_column_ok := 0, error_message := "",
    header_file_format_version := [], header_meta_info := [],
    genotype_info_present := false, sample_ids := [], next_list_index := 0,
    number_len := 0, chrom := [], pos := 0, ids := [], ref := [], alts := [],
    alleles_parsed := false, quality := [], filters := [], info := [],
    format_keys := [], genotype_key_positions_number := 0,
    genotype_key_positions_gt := 0, genotype_other_keys := [],
    genotype_values := [], current_genotype_field_index := 0,
    current_genotype_value_index := 0, gt := [], phased_gt := false }

/-- `get_line_number()`. -/
def get_line_number (sc : VCF_scanner) : Nat :=
  sc.tokenizer.line_number

/-- `get_error()`. -/
def get_error (sc : VCF_scanner) : String :=
  sc.error_message

/-- `VCF_header::has_genotype_info()`. -/
def has_genotype_info (sc : VCF_scanner) : Bool :=
  sc.genotype_info_present

/-- `VCF_header::get_sample_ids()`. -/
def get_sample_ids (sc : VCF_scanner) : List (List Char) :=
  sc.sample_ids

/-- `at_eof()`. -/
def at_eof (sc : VCF_scanner) : Bool :=
  sc.tokenizer.at_eof

/-- `get_chrom()`. -/
def get_chrom (sc : VCF_scanner) : List Char := sc.chrom

/-- `get_pos()`. -/
def get_pos (sc : VCF_scanner) : Nat := sc.pos

/-- `get_ids()`. -/
def get_ids (sc : VCF_scanner) : List (List Char) := sc.ids

/-- `get_ref()`. -/
def get_ref (sc : VCF_scanner) : List Char := sc.ref

/-- `get_alts()`. -/
def get_alts (sc : VCF_scanner) : List (List Char) := sc.alts

/-- `get_quality()`. -/
def get_quality (sc : VCF_scanner) : List Char := sc.quality

/-- `get_filters()`. -/
def get_filters (sc : VCF_scanner) : List (List Char) := sc.filters

/-- `get_info()`. -/
def get_info (sc : VCF_scanner) : List (List Char) := sc.info

/-- `get_gt()`. -/
def get_gt (sc : VCF_scanner) : List Int := sc.gt

/-- `is_phased_gt()`. -/
def is_phased_gt (sc : VCF_scanner) : Bool := sc.phased_gt

/-- `genotype_available()`. -/
def genotype_available (sc : VCF_scanner) : Bool :=
  sc.tokenizer.terminator = (9 : Int)

/-- `header_error(err_msg)`. -/
def header_error (sc : VCF_scanner) (msg : String) : Parsing_event × VCF_scanner :=
  (.error, { sc with error_message := msg })

/-- `invalid_meta_info_line_error()`. -/
def invalid_meta_info_line_error (sc : VCF_scanner) : Parsing_event × VCF_scanner :=
  header_error sc "Malformed meta-information line"

/-- `invalid_header_line_error()`. -/
def invalid_header_line_error (sc : VCF_scanner) : Parsing_event × VCF_scanner :=
  header_error sc "Malformed VCF header line"

/-- `data_line_error(err_msg)`. -/
def data_line_error (sc : VCF_scanner) (msg : String) : Parsing_event × VCF_scanner :=
  (.error, { sc with error_message := msg })

/-- `missing_mandatory_field_error(field_index)`. -/
def missing_mandatory_field_error (sc : VCF_scanner) (field_index : Nat) :
    Parsing_event × VCF_scanner :=
  data_line_error { sc with state := end_of_data_line }
    ("Missing mandatory VCF field \"" ++ get_header_line_column field_index ++ "\"")

/-- `VCF_header::add_meta_info(meta_info_key, meta_info_line)`: appends the
line under its key. -/
def add_meta_info (sc : VCF_scanner) (key line : List Char) : VCF_scanner :=
  let rec go : List (List Char × List (List Char)) → List (List Char × List (List Char))
    | [] => [(key, [line])]
    | (k, vs) :: rest => if k = key then (k, vs ++ [line]) :: rest else (k, vs) :: go rest
  { sc with header_meta_info := go sc.header_meta_info }

/-- `reset_state_for_next_data_line()`. -/
def reset_state_for_next_data_line (sc : VCF_scanner) : VCF_scanner :=
  { sc with state := parsing_chrom, alleles_parsed := false }

/-- `reset_genotype_values()` (`memset` of the vector plus the two
counters). -/
def reset_genotype_values (sc : VCF_scanner) : VCF_scanner :=
  { sc with
    genotype_values := List.replicate sc.genotype_values.length default
    current_genotype_field_index := 0
    number_len := 0 }

/-- `alloc_genotype_value(index)`: grows the vector to `index + 1` zeroed
slots if needed; the slot itself is addressed by the caller. -/
def alloc_genotype_values (l : List Genotype_value) (index : Nat) :
    List Genotype_value :=
  if l.length ≤ index then l ++ List.replicate (index + 1 - l.length) default else l

end VCF_scanner

/-! ### GT decoding (`VCF_scanner::parse_gt`) -/

/-- The `(int) allele` cast when a parsed `unsigned` allele index is pushed
onto the `std::vector<int>` GT vector (two's-complement wrap). -/
def int_of_uint (n : Nat) : Int :=
  if n < 2147483648 then (n : Int) else (n : Int) - 4294967296

/-- The inner digit-scanning `while` loop of `parse_gt`: consumes further
decimal digits into `allele`, returning `none` on unsigned overflow, or the
final value together with the remaining characters (positioned at the first
non-digit, as the pointer is left there by the loop). -/
def parse_gt_digits : List Char → Nat → Option (Nat × List Char)
  | [], allele => some (allele, [])
  | c :: rest, allele =>
      match VCF_tokenizer.digit? c with
      | none => some (allele, c :: rest)
      | some d =>
          if allele > UINT_MAX / 10 ∨ (allele = UINT_MAX / 10 ∧ d > UINT_MAX % 10) then
            none
          else
            parse_gt_digits rest (allele * 10 + d)

theorem parse_gt_digits_length :
    ∀ (cs : List Char) (a r : Nat) (rest : List Char),
      parse_gt_digits cs a = some (r, rest) → rest.length ≤ cs.length := by
  intro cs
  induction cs with
  | nil =>
      intro a r rest h
      simp [parse_gt_digits] at h
      simp [h.2]
  | cons c tl ih =>
      intro a r rest h
      simp only [parse_gt_digits] at h
      cases hd : VCF_tokenizer.digit? c with
      | none =>
          rw [hd] at h
          simp at h
          simp [h.2]
      | some d =>
          rw [hd] at h
          simp at h
          have := ih _ _ _ h.2
          simp only [List.length_cons]
          omega

theorem digit?_nul : VCF_tokenizer.digit? '\x00' = none := by decide

mutual

/-- The body of the `for (;; ++ptr, --len)` loop of `parse_gt`, starting at
an allele position.  `cs` is the remaining token contents; one byte past its
end reads as `'\x00'` (`std::string::data()` is NUL-terminated). -/
def parse_gt_loop (cs : List Char) (gt : List Int) (ph ap : Bool) (nalts : Nat) :
    Option String × List Int × Bool :=
  if hdot : cs.headD '\x00' = '.' then
    parse_gt_sep cs.tail (gt ++ [-1]) ph ap nalts
  else
    match hdig : VCF_tokenizer.digit? (cs.headD '\x00') with
    | none => (some "Invalid character in GT value", gt, ph)
    | some d =>
        match hds : parse_gt_digits cs.tail d with
        | none => (some "Integer overflow in allele index", gt, ph)
        | some (allele, rest) =>
            let gt1 := gt ++ [int_of_uint allele]
            if ap = true ∧ allele > nalts then
              (some "Allele index exceeds the number of alleles", gt1, ph)
            else
              parse_gt_sep rest gt1 ph ap nalts
termination_by cs.length
decreasing_by
  · cases cs with
    | nil => exact absurd hdot (by decide)
    | cons c0 tl => simp
  · have hne : cs ≠ [] := by
      intro hc
      subst hc
      rw [show (([] : List Char).headD '\x00') = '\x00' from rfl, digit?_nul] at hdig
      exact Option.noConfusion hdig
    have hlen := parse_gt_digits_length cs.tail d allele rest hds
    cases cs with
    | nil => exact absurd rfl hne
    | cons c0 tl =>
        simp only [List.tail_cons] at hlen
        simp only [List.length_cons]
        omega

/-- The `if (len == 0) return nullptr; switch (*ptr)` separator step of
`parse_gt`. -/
def parse_gt_sep (cs : List Char) (gt : List Int) (ph ap : Bool) (nalts : Nat) :
    Option String × List Int × Bool :=
  match cs with
  | [] => (none, gt, ph)
  | c :: rest =>
      if c = '/' then parse_gt_loop rest gt false ap nalts
      else if c = '|' then parse_gt_loop rest gt true ap nalts
      else (some "Invalid character in GT value", gt, ph)
termination_by cs.length
decreasing_by
  · simp
  · simp

end

namespace VCF_scanner

/-- `parse_gt()`: decodes the current token as a GT value into the `gt`
vector (cleared first) and the `phased_gt` flag; returns of the C++
`const char*` error message. -/
def parse_gt (sc : VCF_scanner) : Option String × VCF_scanner :=
  if sc.tokenizer.token.length = 0 then
    (some "Empty GT value", { sc with gt := [] })
  else
    let r := parse_gt_loop sc.tokenizer.token [] sc.phased_gt sc.alleles_parsed
        sc.alts.length
    (r.1, { sc with gt := r.2.1, phased_gt := r.2.2 })

/-- `parse_string(target_state)`. -/
def parse_string (sc : VCF_scanner) (target_state : Nat) :
    Parsing_event × VCF_scanner :=
  let pr := sc.tokenizer.prepare_token_or_accumulate
      (VCF_tokenizer.find_char_from_set VCF_tokenizer.newline_or_tab sc.tokenizer.buf)
  if pr.1 = false then (.need_more_data, { sc with tokenizer := pr.2 })
  else if pr.2.at_eol = true then
    missing_mandatory_field_error { sc with tokenizer := pr.2 }
      (target_state - parsing_chrom)
  else
    (.ok, { sc with tokenizer := pr.2, state := target_state })

/-- `std::vector::resize(n)` for a vector of strings: shrinks, or grows with
empty strings. -/
def resizeList (l : List (List Char)) (n : Nat) : List (List Char) :=
  if n ≤ l.length then l.take n else l ++ List.replicate (n - l.length) []

/-- `parse_string_list(target_state, container, character_set)`.  The
container is the caller's vector, passed in and returned (also on
`need_more_data`, mirroring in-place mutation). -/
def parse_string_list (sc : VCF_scanner) (target_state : Nat)
    (container : List (List Char)) (cls : Char → Bool) :
    Parsing_event × VCF_scanner × List (List Char) :=
  let pr := sc.tokenizer.prepare_token_or_accumulate
      (VCF_tokenizer.find_char_from_set cls sc.tokenizer.buf)
  if h1 : pr.1 = false then (.need_more_data, { sc with tokenizer := pr.2 }, container)
  else if h2 : pr.2.at_eol = true then
    let (pe, sc1) := missing_mandatory_field_error { sc with tokenizer := pr.2 }
        (target_state - parsing_chrom)
    (pe, sc1, container)
  else
    let container1 :=
      if pr.2.token_is_dot then container
      else if sc.next_list_index < container.length then
        container.set sc.next_list_index pr.2.token
      else container ++ [pr.2.token]
    let next1 :=
      if pr.2.token_is_dot then sc.next_list_index else sc.next_list_index + 1
    if pr.2.terminator ≠ (9 : Int) then
      parse_string_list { sc with tokenizer := pr.2, next_list_index := next1 }
        target_state container1 cls
    else
      (.ok, { sc with
              tokenizer := pr.2
              next_list_index := next1
              state := target_state },
        resizeList container1 next1)
termination_by sc.tokenizer.buf.length
decreasing_by
  exact VCF_tokenizer.prepare_find_decrease _ _ (by simpa using h1)
    (VCF_tokenizer.at_eol_false_ne_eof _ (by simpa using h2))

/-- The `while (state < target_state)` loop of `skip_to_state`. -/
def skip_to_state_loop (sc : VCF_scanner) (target_state : Nat) :
    Parsing_event × VCF_scanner :=
  if h : sc.state < target_state then
    let pr := sc.tokenizer.skip_token
        (VCF_tokenizer.find_char_from_set VCF_tokenizer.newline_or_tab sc.tokenizer.buf)
    if pr.1 = false then
      (.need_more_data, { sc with
        tokenizer := pr.2
        fields_to_skip := target_state - sc.state
        state := target_state })
    else if pr.2.at_eol = true then
      missing_mandatory_field_error { sc with tokenizer := pr.2 }
        (sc.state - parsing_chrom + 1)
    else
      skip_to_state_loop { sc with tokenizer := pr.2, state := sc.state + 1 }
        target_state
  else (.ok, sc)
termination_by target_state - sc.state
decreasing_by
  show target_state - (sc.state + 1) < target_state - sc.state
  omega

/-- `skip_to_state(target_state)` (the `assert` branches return `error`). -/
def skip_to_state (sc : VCF_scanner) (target_state : Nat) :
    Parsing_event × VCF_scanner :=
  if sc.state < parsing_chrom then (.error, sc)
  else if target_state < sc.state then (.error, sc)
  else skip_to_state_loop sc target_state

end VCF_scanner

namespace VCF_scanner

/-- The `end_of_header_line:` tail of `continue_parsing_header`. -/
def hdr_end_of_header_line (sc : VCF_scanner) : Parsing_event × VCF_scanner :=
  if sc.tokenizer.buffer_is_empty = true ∧ sc.tokenizer.at_eof = false then
    (.need_more_data, { sc with state := peeking_beyond_newline })
  else
    (.ok, reset_state_for_next_data_line sc)

/-- The `case parsing_sample_ids` loop of `continue_parsing_header`. -/
def hdr_sample_ids (sc : VCF_scanner) : Parsing_event × VCF_scanner :=
  let pr := sc.tokenizer.prepare_token_or_accumulate
      (VCF_tokenizer.find_char_from_set VCF_tokenizer.newline_or_tab sc.tokenizer.buf)
  if h1 : pr.1 = false then (.need_more_data, { sc with tokenizer := pr.2 })
  else
    if h2 : pr.2.terminator = (9 : Int) then
      hdr_sample_ids { sc with
        tokenizer := pr.2
        sample_ids := sc.sample_ids ++ [pr.2.token] }
    else
      hdr_end_of_header_line { sc with
        tokenizer := pr.2
        sample_ids := sc.sample_ids ++ [pr.2.token] }
termination_by sc.tokenizer.buf.length
decreasing_by
  exact VCF_tokenizer.prepare_find_decrease _ _ (by simpa using h1)
    (by rw [h2]; decide)

/-- The `case parsing_header_line_columns` loop of
`continue_parsing_header`. -/
def hdr_columns (sc : VCF_scanner) : Parsing_event × VCF_scanner :=
  let pr := sc.tokenizer.prepare_token_or_accumulate
      (VCF_tokenizer.find_char_from_set VCF_tokenizer.newline_or_tab sc.tokenizer.buf)
  if h1 : pr.1 = false then (.need_more_data, { sc with tokenizer := pr.2 })
  else
    if pr.2.token ≠ (get_header_line_column sc.header_line_column_ok).toList then
      invalid_header_line_error { sc with tokenizer := pr.2 }
    else
      if h2 : pr.2.at_eol = true then
        if sc.header_line_column_ok + 1 < number_of_mandatory_columns then
          invalid_header_line_error { sc with
            tokenizer := pr.2
            header_line_column_ok := sc.header_line_column_ok + 1 }
        else if sc.header_line_column_ok + 1 > number_of_mandatory_columns then
          hdr_end_of_header_line { sc with
            tokenizer := pr.2
            header_line_column_ok := sc.header_line_column_ok + 1
            genotype_info_present := true }
        else
          hdr_end_of_header_line { sc with
            tokenizer := pr.2
            header_line_column_ok := sc.header_line_column_ok + 1 }
      else
        if sc.header_line_column_ok + 1 ≤ number_of_mandatory_columns then
          hdr_columns { sc with
            tokenizer := pr.2
            header_line_column_ok := sc.header_line_column_ok + 1 }
        else
          hdr_sample_ids { sc with
            tokenizer := pr.2
            header_line_column_ok := sc.header_line_column_ok + 1
            genotype_info_present := true
            state := parsing_sample_ids }
termination_by sc.tokenizer.buf.length
decreasing_by
  exact VCF_tokenizer.prepare_find_decrease _ _ (by simpa using h1)
    (VCF_tokenizer.at_eol_false_ne_eof _ (by simpa using h2))

mutual

/-- The `case parsing_metainfo_key` part of `continue_parsing_header`. -/
def hdr_metainfo_key (sc : VCF_scanner) : Parsing_event × VCF_scanner :=
  let pr := sc.tokenizer.prepare_token_or_accumulate
      (VCF_tokenizer.find_char_from_set VCF_tokenizer.newline_or_tab_or_equals
        sc.tokenizer.buf)
  if h1 : pr.1 = false then (.need_more_data, { sc with tokenizer := pr.2 })
  else
    if pr.2.at_eol = true then
      invalid_meta_info_line_error { sc with tokenizer := pr.2 }
    else if pr.2.terminator = (9 : Int) then
      if pr.2.token.drop 1 ≠ (get_header_line_column 0).toList then
        invalid_meta_info_line_error { sc with tokenizer := pr.2 }
      else
        hdr_columns { sc with
          tokenizer := pr.2
          header_line_column_ok := 1
          state := parsing_header_line_columns }
    else
      -- an equals sign was found: save the key, parse the value
      if h2 : pr.2.at_eol = true then
        invalid_meta_info_line_error { sc with tokenizer := pr.2 }
      else
        if pr.2.token.length < 3 ∨ pr.2.token.getD 0 ' ' ≠ '#' ∨
            pr.2.token.getD 1 ' ' ≠ '#' then
          invalid_meta_info_line_error { sc with tokenizer := pr.2 }
        else
          hdr_metainfo_value { sc with
            tokenizer := pr.2
            current_meta_info_key := pr.2.token.drop 2
            state := parsing_metainfo_value }
termination_by (sc.tokenizer.buf.length, 0)
decreasing_by
  all_goals
    apply Prod.Lex.left
    exact VCF_tokenizer.prepare_find_decrease _ _ (by simpa using h1)
      (VCF_tokenizer.at_eol_false_ne_eof _ (by simpa using h2))

/-- The `case parsing_metainfo_value` part of `continue_parsing_header`. -/
def hdr_metainfo_value (sc : VCF_scanner) : Parsing_event × VCF_scanner :=
  let pr := sc.tokenizer.prepare_token_or_accumulate
      (VCF_tokenizer.find_char_from_set VCF_tokenizer.newline_cls sc.tokenizer.buf)
  if h1 : pr.1 = false then (.need_more_data, { sc with tokenizer := pr.2 })
  else
    if h2 : pr.2.terminator = CharEOF then
      header_error { sc with tokenizer := pr.2 }
        "Unexpected end of file while parsing VCF file header"
    else
      hdr_metainfo_key
        (add_meta_info { sc with
            tokenizer := pr.2
            state := parsing_metainfo_key }
          sc.current_meta_info_key pr.2.token)
termination_by (sc.tokenizer.buf.length, 1)
decreasing_by
  apply Prod.Lex.left
  have hb : (add_meta_info { sc with
      tokenizer := pr.2
      state := parsing_metainfo_key } sc.current_meta_info_key
        pr.2.token).tokenizer = pr.2 := rfl
  rw [hb]
  exact VCF_tokenizer.prepare_find_decrease _ _ (by simpa using h1) h2

end

/-- The `case parsing_fileformat` part of `continue_parsing_header`. -/
def hdr_fileformat (sc : VCF_scanner) : Parsing_event × VCF_scanner :=
  let pr := sc.tokenizer.prepare_token_or_accumulate
      (VCF_tokenizer.find_char_from_set VCF_tokenizer.newline_cls sc.tokenizer.buf)
  if pr.1 = false then (.need_more_data, { sc with tokenizer := pr.2 })
  else
    match pr.2.get_key_value with
    | none =>
        header_error { sc with tokenizer := pr.2 }
          "VCF files must start with '##fileformat'"
    | some (key, value) =>
        if key ≠ "##fileformat".toList then
          header_error { sc with tokenizer := pr.2 }
            "VCF files must start with '##fileformat'"
        else
          hdr_metainfo_key { sc with
            tokenizer := pr.2
            header_file_format_version := value
            state := parsing_metainfo_key }

/-- `continue_parsing_header()` (the `switch (state)` dispatch). -/
def continue_parsing_header (sc : VCF_scanner) : Parsing_event × VCF_scanner :=
  if sc.state = parsing_fileformat then hdr_fileformat sc
  else if sc.state = parsing_metainfo_key then hdr_metainfo_key sc
  else if sc.state = parsing_metainfo_value then hdr_metainfo_value sc
  else if sc.state = parsing_header_line_columns then hdr_columns sc
  else hdr_sample_ids sc

/-- `continue_parsing_pos()`. -/
def continue_parsing_pos (sc : VCF_scanner) : Parsing_event × VCF_scanner :=
  let r := sc.tokenizer.parse_uint sc.pos sc.number_len
  let sc1 := { sc with pos := r.2.1, number_len := r.2.2.1, tokenizer := r.2.2.2 }
  match r.1 with
  | .end_of_buffer => (.need_more_data, sc1)
  | .integer_overflow => data_line_error sc1 "Integer overflow in the POS column"
  | .end_of_number =>
      if sc1.number_len = 0 then
        data_line_error sc1 "Missing an integer in the POS column"
      else if sc1.tokenizer.terminator ≠ (9 : Int) then
        data_line_error sc1 "Invalid data line format"
      else
        (.ok, { sc1 with state := parsing_id })

/-- `continue_parsing_ids()`. -/
def continue_parsing_ids (sc : VCF_scanner) : Parsing_event × VCF_scanner :=
  let r := parse_string_list sc parsing_ref sc.ids
      VCF_tokenizer.newline_or_tab_or_semicolon
  (r.1, { r.2.1 with ids := r.2.2 })

/-- `continue_parsing_alts()`. -/
def continue_parsing_alts (sc : VCF_scanner) : Parsing_event × VCF_scanner :=
  let r := parse_string_list sc parsing_quality sc.alts
      VCF_tokenizer.newline_or_tab_or_comma
  if r.1 = .ok then
    (.ok, { r.2.1 with alts := r.2.2, alleles_parsed := true })
  else
    (r.1, { r.2.1 with alts := r.2.2 })

/-- `continue_parsing_quality()`. -/
def continue_parsing_quality (sc : VCF_scanner) : Parsing_event × VCF_scanner :=
  let r := parse_string sc parsing_filter
  if r.1 ≠ .ok then r
  else
    if r.2.tokenizer.token_is_dot = false then
      (.ok, { r.2 with quality := r.2.tokenizer.token })
    else
      (.ok, { r.2 with quality := [] })

/-- `continue_parsing_filters()`. -/
def continue_parsing_filters (sc : VCF_scanner) : Parsing_event × VCF_scanner :=
  let r := parse_string_list sc parsing_info_field sc.filters
      VCF_tokenizer.newline_or_tab_or_semicolon
  (r.1, { r.2.1 with filters := r.2.2 })

/-- `continue_parsing_info()`. -/
def continue_parsing_info (sc : VCF_scanner) : Parsing_event × VCF_scanner :=
  let pr := sc.tokenizer.prepare_token_or_accumulate
      (VCF_tokenizer.find_char_from_set VCF_tokenizer.newline_or_tab_or_semicolon
        sc.tokenizer.buf)
  if h1 : pr.1 = false then (.need_more_data, { sc with tokenizer := pr.2 })
  else
    if h2 : pr.2.at_eol = true then
      (.ok, { sc with tokenizer := pr.2, state := end_of_data_line })
    else
      let info1 := if pr.2.token_is_dot then sc.info else sc.info ++ [pr.2.token]
      if pr.2.terminator ≠ (9 : Int) then
        continue_parsing_info { sc with tokenizer := pr.2, info := info1 }
      else
        (.ok, { sc with
                tokenizer := pr.2
                info := info1
                state := parsing_genotype_format })
termination_by sc.tokenizer.buf.length
decreasing_by
  exact VCF_tokenizer.prepare_find_decrease _ _ (by simpa using h1)
    (VCF_tokenizer.at_eol_false_ne_eof _ (by simpa using h2))

/-- `std::map::operator[] =` on the `other_keys` map: update the key's
position or insert it. -/
def updateAssoc (m : List (List Char × Nat)) (k : List Char) (v : Nat) :
    List (List Char × Nat) :=
  match m with
  | [] => [(k, v)]
  | (k0, v0) :: rest =>
      if k0 = k then (k, v) :: rest else (k0, v0) :: updateAssoc rest k v

theorem parse_gt_tokenizer (sc : VCF_scanner) :
    (parse_gt sc).2.tokenizer = sc.tokenizer := by
  by_cases h : sc.tokenizer.token.length = 0 <;> simp [parse_gt, h]

/-- `continue_parsing_genotype_format()`. -/
def continue_parsing_genotype_format (sc : VCF_scanner) : Parsing_event × VCF_scanner :=
  let pr := sc.tokenizer.prepare_token_or_accumulate
      (VCF_tokenizer.find_char_from_set VCF_tokenizer.newline_or_tab_or_colon
        sc.tokenizer.buf)
  if h1 : pr.1 = false then (.need_more_data, { sc with tokenizer := pr.2 })
  else
    if h2 : pr.2.at_eol = true then
      if sc.sample_ids.isEmpty then
        (.ok, { sc with tokenizer := pr.2, state := end_of_data_line })
      else
        data_line_error { sc with tokenizer := pr.2, state := end_of_data_line }
          "No genotype information present"
    else
      let key := pr.2.token
      let fk := if key ∈ sc.format_keys then sc.format_keys else sc.format_keys ++ [key]
      let sc1 :=
        if key = "GT".toList then
          { sc with
            tokenizer := pr.2
            format_keys := fk
            genotype_key_positions_gt := sc.genotype_key_positions_number + 1
            genotype_key_positions_number := sc.genotype_key_positions_number + 1 }
        else
          { sc with
            tokenizer := pr.2
            format_keys := fk
            genotype_other_keys :=
              updateAssoc sc.genotype_other_keys key
                (sc.genotype_key_positions_number + 1)
            genotype_key_positions_number := sc.genotype_key_positions_number + 1 }
      if pr.2.terminator ≠ (9 : Int) then
        continue_parsing_genotype_format sc1
      else
        (.ok, reset_genotype_values { sc1 with state := parsing_genotypes })
termination_by sc.tokenizer.buf.length
decreasing_by
  have hb : sc1.tokenizer = pr.2 := by
    simp only [sc1]
    split <;> rfl
  rw [hb]
  exact VCF_tokenizer.prepare_find_decrease _ _ (by simpa using h1)
    (VCF_tokenizer.at_eol_false_ne_eof _ (by simpa using h2))

mutual

/-- The loop body of `continue_parsing_genotype()`. -/
def continue_parsing_genotype (sc : VCF_scanner) : Parsing_event × VCF_scanner :=
  let value := sc.genotype_values.getD sc.current_genotype_value_index default
  if value.captured = false then
    let pr := sc.tokenizer.skip_token
        (VCF_tokenizer.find_char_from_set VCF_tokenizer.newline_or_tab_or_colon
          sc.tokenizer.buf)
    if h1 : pr.1 = false then (.need_more_data, { sc with tokenizer := pr.2 })
    else
      if h2 : pr.2.at_eol = true then
        (.ok, { sc with tokenizer := pr.2, state := end_of_data_line })
      else
        continue_parsing_genotype_next { sc with tokenizer := pr.2 }
  else
    let pr := sc.tokenizer.prepare_token_or_accumulate
        (VCF_tokenizer.find_char_from_set VCF_tokenizer.newline_or_tab_or_colon
          sc.tokenizer.buf)
    if h1 : pr.1 = false then (.need_more_data, { sc with tokenizer := pr.2 })
    else
      let sc1 :=
        if pr.2.at_eol = true then
          { sc with tokenizer := pr.2, state := end_of_data_line }
        else
          { sc with tokenizer := pr.2 }
      match value.data_type with
      | .vcf_gt =>
          let r := parse_gt sc1
          match r.1 with
          | some msg => data_line_error r.2 msg
          | none =>
              if h2 : pr.2.at_eol = true then (.ok, r.2)
              else continue_parsing_genotype_next r.2
      | _ =>
          if h2 : pr.2.at_eol = true then (.ok, sc1)
          else continue_parsing_genotype_next sc1
termination_by
  (sc.tokenizer.buf.length,
    sc.genotype_key_positions_number - sc.current_genotype_value_index)
decreasing_by
  · apply Prod.Lex.left
    exact VCF_tokenizer.skip_find_decrease _ _ (by simpa using h1)
      (VCF_tokenizer.at_eol_false_ne_eof _ (by simpa using h2))
  · apply Prod.Lex.left
    have hsc1 : sc1.tokenizer = pr.2 := by
      simp only [sc1]
      split <;> rfl
    rw [parse_gt_tokenizer, hsc1]
    exact VCF_tokenizer.prepare_find_decrease _ _ (by simpa using h1)
      (VCF_tokenizer.at_eol_false_ne_eof _ (by simpa using h2))
  · apply Prod.Lex.left
    have hsc1 : sc1.tokenizer = pr.2 := by
      simp only [sc1]
      split <;> rfl
    rw [hsc1]
    exact VCF_tokenizer.prepare_find_decrease _ _ (by simpa using h1)
      (VCF_tokenizer.at_eol_false_ne_eof _ (by simpa using h2))

/-- The `while (++current_genotype_value_index < ...)` tail of the loop of
`continue_parsing_genotype()`. -/
def continue_parsing_genotype_next (sc : VCF_scanner) : Parsing_event × VCF_scanner :=
  if sc.tokenizer.terminator = (9 : Int) then
    (.ok, { sc with
            current_genotype_field_index := sc.current_genotype_field_index + 1 })
  else
    if hlt : sc.current_genotype_value_index + 1 < sc.genotype_key_positions_number then
      continue_parsing_genotype { sc with
        current_genotype_value_index := sc.current_genotype_value_index + 1 }
    else
      data_line_error { sc with
          current_genotype_value_index := sc.current_genotype_value_index + 1 }
        "Too many genotype info fields"
termination_by
  (sc.tokenizer.buf.length,
    sc.genotype_key_positions_number - sc.current_genotype_value_index)
decreasing_by
  apply Prod.Lex.right
  show sc.genotype_key_positions_number - (sc.current_genotype_value_index + 1)
    < sc.genotype_key_positions_number - sc.current_genotype_value_index
  omega

end

/-- `feed`, case `skipping_to_next_line` and the fall-through to
`peeking_beyond_newline`. -/
def feed_skip_to_next_line (sc : VCF_scanner) : Parsing_event × VCF_scanner :=
  let pr := sc.tokenizer.skip_token
      (VCF_tokenizer.find_char_from_set VCF_tokenizer.newline_cls sc.tokenizer.buf)
  if pr.1 = false then (.need_more_data, { sc with tokenizer := pr.2 })
  else
    if pr.2.buffer_is_empty = true ∧ pr.2.at_eof = false then
      (.need_more_data, { sc with tokenizer := pr.2, state := peeking_beyond_newline })
    else
      (.ok, reset_state_for_next_data_line { sc with tokenizer := pr.2 })

/-- The `switch (state)` dispatch at the end of `feed`. -/
def feed_dispatch (sc : VCF_scanner) : Parsing_event × VCF_scanner :=
  if sc.state = parsing_id then continue_parsing_ids sc
  else if sc.state = parsing_ref then
    let r := parse_string sc parsing_alt
    if r.1 ≠ .ok then r
    else continue_parsing_alts { r.2 with ref := r.2.tokenizer.token }
  else if sc.state = parsing_alt then continue_parsing_alts sc
  else if sc.state = parsing_quality then continue_parsing_quality sc
  else if sc.state = parsing_filter then continue_parsing_filters sc
  else if sc.state = parsing_info_field then continue_parsing_info sc
  else if sc.state = parsing_genotype_format then continue_parsing_genotype_format sc
  else if sc.state = skipping_to_next_line then feed_skip_to_next_line sc
  else if sc.state = peeking_beyond_newline then
    (.ok, reset_state_for_next_data_line sc)
  else (.error, sc)

/-- The `for (; fields_to_skip > 0; --fields_to_skip)` loop of `feed`. -/
def feed_skip_loop (sc : VCF_scanner) : Parsing_event × VCF_scanner :=
  if h : 0 < sc.fields_to_skip then
    let pr := sc.tokenizer.skip_token
        (VCF_tokenizer.find_char_from_set VCF_tokenizer.newline_or_tab
          sc.tokenizer.buf)
    if pr.1 = false then (.need_more_data, { sc with tokenizer := pr.2 })
    else
      if pr.2.at_eol = true then
        missing_mandatory_field_error { sc with tokenizer := pr.2, fields_to_skip := 0 }
          (sc.state - parsing_chrom + 1 - sc.fields_to_skip)
      else
        feed_skip_loop { sc with
          tokenizer := pr.2
          fields_to_skip := sc.fields_to_skip - 1 }
  else feed_dispatch sc
termination_by sc.fields_to_skip
decreasing_by
  show sc.fields_to_skip - 1 < sc.fields_to_skip
  omega

/-- `feed(buffer, buffer_size)`. -/
def feed (sc : VCF_scanner) (buffer : List Char) : Parsing_event × VCF_scanner :=
  let sc := { sc with tokenizer := sc.tokenizer.set_new_buffer buffer }
  if sc.state = parsing_genotypes then continue_parsing_genotype sc
  else if sc.state ≤ parsing_pos then
    if sc.state < parsing_chrom then continue_parsing_header sc
    else if sc.state = parsing_chrom then
      let r := parse_string sc parsing_pos
      if r.1 ≠ .ok then r
      else continue_parsing_pos { r.2 with chrom := r.2.tokenizer.token }
    else continue_parsing_pos sc
  else feed_skip_loop sc

/-- `parse_loc()` (both `assert` branches return `error`). -/
def parse_loc (sc : VCF_scanner) : Parsing_event × VCF_scanner :=
  if sc.state ≠ parsing_chrom then (.error, sc)
  else
    let sc := { sc with pos := 0, number_len := 0 }
    let r := parse_string sc parsing_pos
    if r.1 ≠ .ok then r
    else continue_parsing_pos { r.2 with chrom := r.2.tokenizer.token }

/-- `parse_ids()`. -/
def parse_ids (sc : VCF_scanner) : Parsing_event × VCF_scanner :=
  let sc := { sc with next_list_index := 0 }
  let r := skip_to_state sc parsing_id
  if r.1 ≠ .ok then r
  else continue_parsing_ids r.2

/-- `parse_alleles()`. -/
def parse_alleles (sc : VCF_scanner) : Parsing_event × VCF_scanner :=
  let sc := { sc with next_list_index := 0 }
  let r := skip_to_state sc parsing_ref
  if r.1 ≠ .ok then r
  else
    let r2 := parse_string r.2 parsing_alt
    if r2.1 ≠ .ok then r2
    else continue_parsing_alts { r2.2 with ref := r2.2.tokenizer.token }

/-- `parse_quality()`. -/
def parse_quality (sc : VCF_scanner) : Parsing_event × VCF_scanner :=
  let r := skip_to_state sc parsing_quality
  if r.1 ≠ .ok then r
  else continue_parsing_quality r.2

/-- `parse_filters()`. -/
def parse_filters (sc : VCF_scanner) : Parsing_event × VCF_scanner :=
  let sc := { sc with next_list_index := 0 }
  let r := skip_to_state sc parsing_filter
  if r.1 ≠ .ok then r
  else continue_parsing_filters r.2

/-- `parse_info()`. -/
def parse_info (sc : VCF_scanner) : Parsing_event × VCF_scanner :=
  let sc := { sc with info := [] }
  let r := skip_to_state sc parsing_info_field
  if r.1 ≠ .ok then r
  else continue_parsing_info r.2

/-- `parse_genotype_format()`. -/
def parse_genotype_format (sc : VCF_scanner) : Parsing_event × VCF_scanner :=
  let sc := { sc with
    genotype_key_positions_number := 0
    genotype_key_positions_gt := 0
    genotype_other_keys := [] }
  let r := skip_to_state sc parsing_genotype_format
  if r.1 ≠ .ok then r
  else continue_parsing_genotype_format r.2

/-- `capture_gt()`. -/
def capture_gt (sc : VCF_scanner) : Bool × VCF_scanner :=
  let gt_index := sc.genotype_key_positions_gt
  if gt_index = 0 then (false, sc)
  else
    let idx := gt_index - 1
    let gvs := alloc_genotype_values sc.genotype_values idx
    (true, { sc with
      genotype_values := gvs.set idx { data_type := .vcf_gt, captured := true } })

/-- `parse_genotype()`. -/
def parse_genotype (sc : VCF_scanner) : Parsing_event × VCF_scanner :=
  if sc.state ≠ parsing_genotypes then (.error, sc)
  else if sc.sample_ids.length ≤ sc.current_genotype_field_index then
    data_line_error sc
      "The number of genotype fields exceeds the number of samples"
  else
    continue_parsing_genotype { sc with current_genotype_value_index := 0 }

/-- `clear_line()`. -/
def clear_line (sc : VCF_scanner) : Parsing_event × VCF_scanner :=
  if sc.tokenizer.at_eof = false then
    if sc.state ≠ peeking_beyond_newline then
      if sc.state ≠ end_of_data_line then
        let pr := sc.tokenizer.skip_token
            (VCF_tokenizer.find_char_from_set VCF_tokenizer.newline_cls
              sc.tokenizer.buf)
        if pr.1 = false then
          (.need_more_data, { sc with
            tokenizer := pr.2
            state := skipping_to_next_line })
        else
          if pr.2.buffer_is_empty = true then
            (.need_more_data, { sc with
              tokenizer := pr.2
              state := peeking_beyond_newline })
          else
            (.ok, reset_state_for_next_data_line { sc with tokenizer := pr.2 })
      else
        if sc.tokenizer.buffer_is_empty = true then
          (.need_more_data, { sc with state := peeking_beyond_newline })
        else
          (.ok, reset_state_for_next_data_line sc)
    else
      (.ok, reset_state_for_next_data_line sc)
  else
    (.ok, reset_state_for_next_data_line sc)

end VCF_scanner


/-! ### Claims C9 and C8: `set_new_buffer` EOF behaviour and the
accumulator invariant -/

/-- The tokenizer with dead accumulator content erased: when `accumulating`
is false, the accumulator is replaced by the empty buffer. -/
def VCF_tokenizer.erase_dead_accumulator (tk : VCF_tokenizer) : VCF_tokenizer :=
  { tk with accumulator := if tk.accumulating then tk.accumulator else [] }

theorem erase_dead_accumulator_prepare (tk : VCF_tokenizer) (eot : Option Nat) :
    (tk.erase_dead_accumulator.prepare_token_or_accumulate eot).1 =
        (tk.prepare_token_or_accumulate eot).1 ∧
      (tk.erase_dead_accumulator.prepare_token_or_accumulate eot).2.erase_dead_accumulator =
        (tk.prepare_token_or_accumulate eot).2.erase_dead_accumulator := by
  obtain ⟨tbuf, teof, tacc, taccum, ttok, tterm, tline⟩ := tk
  by_cases ha : tacc
  · have : VCF_tokenizer.erase_dead_accumulator
        ⟨tbuf, teof, tacc, taccum, ttok, tterm, tline⟩ =
        ⟨tbuf, teof, tacc, taccum, ttok, tterm, tline⟩ := by
      simp [VCF_tokenizer.erase_dead_accumulator, ha]
    rw [this]
    exact ⟨rfl, rfl⟩
  · cases eot with
    | none =>
        by_cases he : teof = false <;>
          simp [VCF_tokenizer.prepare_token_or_accumulate,
            VCF_tokenizer.erase_dead_accumulator, VCF_tokenizer.set_terminator_eof,
            he, ha]
    | some i =>
        by_cases hn : tbuf[i]?.getD ' ' = '\n' <;>
          simp [VCF_tokenizer.prepare_token_or_accumulate,
            VCF_tokenizer.erase_dead_accumulator,
            VCF_tokenizer.set_terminator_and_inc_line_num_if_newline,
            VCF_tokenizer.set_terminator_byte, ha, hn]

theorem erase_dead_accumulator_skip (tk : VCF_tokenizer) (eot : Option Nat) :
    (tk.erase_dead_accumulator.skip_token eot).1 = (tk.skip_token eot).1 ∧
      (tk.erase_dead_accumulator.skip_token eot).2.erase_dead_accumulator =
        (tk.skip_token eot).2.erase_dead_accumulator := by
  obtain ⟨tbuf, teof, tacc, taccum, ttok, tterm, tline⟩ := tk
  by_cases ha : tacc
  · have : VCF_tokenizer.erase_dead_accumulator
        ⟨tbuf, teof, tacc, taccum, ttok, tterm, tline⟩ =
        ⟨tbuf, teof, tacc, taccum, ttok, tterm, tline⟩ := by
      simp [VCF_tokenizer.erase_dead_accumulator, ha]
    rw [this]
    exact ⟨rfl, rfl⟩
  · cases eot with
    | none =>
        by_cases he : teof = false <;>
          simp [VCF_tokenizer.skip_token, VCF_tokenizer.erase_dead_accumulator,
            VCF_tokenizer.set_terminator_eof, he, ha]
    | some i =>
        by_cases hn : tbuf[i]?.getD ' ' = '\n' <;>
          simp [VCF_tokenizer.skip_token, VCF_tokenizer.erase_dead_accumulator,
            VCF_tokenizer.set_terminator_and_inc_line_num_if_newline,
            VCF_tokenizer.set_terminator_byte, ha, hn]

theorem erase_dead_accumulator_parse_uint (tk : VCF_tokenizer) (n len : Nat) :
    (tk.erase_dead_accumulator.parse_uint n len).1 = (tk.parse_uint n len).1 ∧
      (tk.erase_dead_accumulator.parse_uint n len).2.1 = (tk.parse_uint n len).2.1 ∧
      (tk.erase_dead_accumulator.parse_uint n len).2.2.1 =
        (tk.parse_uint n len).2.2.1 ∧
      (tk.erase_dead_accumulator.parse_uint n len).2.2.2.erase_dead_accumulator =
        (tk.parse_uint n len).2.2.2.erase_dead_accumulator := by
  obtain ⟨tbuf, teof, tacc, taccum, ttok, tterm, tline⟩ := tk
  by_cases ha : tacc
  · have : VCF_tokenizer.erase_dead_accumulator
        ⟨tbuf, teof, tacc, taccum, ttok, tterm, tline⟩ =
        ⟨tbuf, teof, tacc, taccum, ttok, tterm, tline⟩ := by
      simp [VCF_tokenizer.erase_dead_accumulator, ha]
    rw [this]
    exact ⟨rfl, rfl, rfl, rfl⟩
  · by_cases hb : tbuf.isEmpty
    · by_cases he : teof <;>
        simp [VCF_tokenizer.parse_uint, VCF_tokenizer.erase_dead_accumulator,
          VCF_tokenizer.set_terminator_eof, hb, he, ha]
    · rcases hpul : VCF_tokenizer.parse_uint_list tbuf n len with
        ⟨res, n2, len2, oc, rest⟩
      cases res <;> cases oc <;>
        first
        | (rename_i c
           by_cases hn : c = '\n' <;>
             simp [VCF_tokenizer.parse_uint, VCF_tokenizer.erase_dead_accumulator,
               VCF_tokenizer.set_terminator_and_inc_line_num_if_newline,
               VCF_tokenizer.set_terminator_byte, hb, hpul, ha, hn])
        | simp [VCF_tokenizer.parse_uint, VCF_tokenizer.erase_dead_accumulator,
            VCF_tokenizer.set_terminator_and_inc_line_num_if_newline,
            VCF_tokenizer.set_terminator_byte, hb, hpul, ha]

/-- `set_new_buffer` commutes with dead-accumulator erasure. -/
theorem erase_dead_accumulator_set_new_buffer (tk : VCF_tokenizer) (b : List Char) :
    (tk.erase_dead_accumulator.set_new_buffer b).erase_dead_accumulator =
      (tk.set_new_buffer b).erase_dead_accumulator := by
  obtain ⟨tbuf, teof, tacc, taccum, ttok, tterm, tline⟩ := tk
  by_cases ha : tacc <;>
    simp [VCF_tokenizer.erase_dead_accumulator, VCF_tokenizer.set_new_buffer, ha]

/-- C9, counterexample: `eof_reached` is not latched.  After installing a
zero-length buffer (EOF) and then a non-empty buffer, `at_eof()` is false
again, contradicting "at_eof() returns true from then on ... including after
any further feed/set_new_buffer calls". -/
theorem C9_counterexample :
    ((VCF_tokenizer.init.set_new_buffer []).set_new_buffer ['a']).at_eof = false := by
  decide

/-- C9, amended: `set_new_buffer` installs the view and plain-assigns
`eof_reached` to whether the new buffer is empty, so `at_eof()` holds from a
zero-length feed until a subsequent non-empty buffer is installed (it is not
latched across further non-empty feeds); no field other than the view and
the EOF flag changes. -/
theorem C9_set_new_buffer_spec (tk : VCF_tokenizer) (b : List Char) :
    (tk.set_new_buffer b).at_eof = b.isEmpty ∧
    (tk.set_new_buffer b).buf = b ∧
    (tk.set_new_buffer b).accumulating = tk.accumulating ∧
    (tk.set_new_buffer b).accumulator = tk.accumulator ∧
    (tk.set_new_buffer b).token = tk.token ∧
    (tk.set_new_buffer b).terminator = tk.terminator ∧
    (tk.set_new_buffer b).line_number = tk.line_number := by
  simp [VCF_tokenizer.set_new_buffer, VCF_tokenizer.at_eof]

/-- C8, counterexample: a state reachable by `set_new_buffer` and
`prepare_token_or_accumulate` calls (accumulate `"ab"`, then finish the
token at a `'\n'` that begins the next buffer) in which `accumulating` is
false but the accumulator still holds the token bytes, refuting "whenever
the accumulating flag is false the accumulator byte buffer is empty". -/
theorem C8_counterexample :
    let tk1 := VCF_tokenizer.init.set_new_buffer ['a', 'b']
    let tk2 := (tk1.prepare_token_or_accumulate
        (VCF_tokenizer.find_char_from_set VCF_tokenizer.newline_cls tk1.buf)).2
    let tk3 := tk2.set_new_buffer ['\n', 'c']
    let tk4 := (tk3.prepare_token_or_accumulate
        (VCF_tokenizer.find_char_from_set VCF_tokenizer.newline_cls tk3.buf)).2
    tk4.accumulating = false ∧ tk4.accumulator ≠ [] := by
  decide

/-- C8, amended: in every reachable state, whenever `accumulating` is false
the accumulator content is dead rather than empty: erasing it commutes with
`set_new_buffer`, `prepare_token_or_accumulate`, `skip_token` and
`parse_uint` and changes none of their results, so every reachable state is
observationally equivalent to the same state with an empty accumulator, and
the invariant `erase_dead_accumulator`-equality is preserved by every
operation from the initial state on. -/
theorem C8_dead_accumulator_spec :
    VCF_tokenizer.init.erase_dead_accumulator = VCF_tokenizer.init ∧
    (∀ (tk : VCF_tokenizer) (b : List Char),
      (tk.erase_dead_accumulator.set_new_buffer b).erase_dead_accumulator =
        (tk.set_new_buffer b).erase_dead_accumulator) ∧
    (∀ (tk : VCF_tokenizer) (eot : Option Nat),
      (tk.erase_dead_accumulator.prepare_token_or_accumulate eot).1 =
        (tk.prepare_token_or_accumulate eot).1 ∧
      (tk.erase_dead_accumulator.prepare_token_or_accumulate eot).2.erase_dead_accumulator =
        (tk.prepare_token_or_accumulate eot).2.erase_dead_accumulator) ∧
    (∀ (tk : VCF_tokenizer) (eot : Option Nat),
      (tk.erase_dead_accumulator.skip_token eot).1 = (tk.skip_token eot).1 ∧
      (tk.erase_dead_accumulator.skip_token eot).2.erase_dead_accumulator =
        (tk.skip_token eot).2.erase_dead_accumulator) ∧
    (∀ (tk : VCF_tokenizer) (n len : Nat),
      (tk.erase_dead_accumulator.parse_uint n len).1 = (tk.parse_uint n len).1 ∧
      (tk.erase_dead_accumulator.parse_uint n len).2.1 = (tk.parse_uint n len).2.1 ∧
      (tk.erase_dead_accumulator.parse_uint n len).2.2.1 =
        (tk.parse_uint n len).2.2.1 ∧
      (tk.erase_dead_accumulator.parse_uint n len).2.2.2.erase_dead_accumulator =
        (tk.parse_uint n len).2.2.2.erase_dead_accumulator) :=
  ⟨rfl, erase_dead_accumulator_set_new_buffer, erase_dead_accumulator_prepare,
    erase_dead_accumulator_skip, erase_dead_accumulator_parse_uint⟩

/-! ### Claim C3: POS parsing -/

theorem char_toNat_inj {c d : Char} (h : c.toNat = d.toNat) : c = d := by
  have h2 := congrArg Char.ofNat h
  rwa [Char.ofNat_toNat, Char.ofNat_toNat] at h2

/-- Whether a byte is an ASCII decimal digit (the condition under which
`digit?` returns a value). -/
def is_ascii_digit (c : Char) : Bool :=
  48 ≤ c.toNat && c.toNat ≤ 57

theorem digit?_eq_some_iff (c : Char) :
    VCF_tokenizer.digit? c = some (c.toNat - 48) ↔ is_ascii_digit c = true := by
  constructor
  · intro h
    by_contra hc
    simp [is_ascii_digit] at hc
    simp [VCF_tokenizer.digit?] at h
    omega
  · intro h
    simp [is_ascii_digit] at h
    simp [VCF_tokenizer.digit?, h]

theorem digit?_eq_none_iff (c : Char) :
    VCF_tokenizer.digit? c = none ↔ is_ascii_digit c = false := by
  simp [VCF_tokenizer.digit?, is_ascii_digit]

/-- One step of decimal accumulation (`*number = *number * 10 + digit`). -/
def uint_step (n : Nat) (c : Char) : Nat := n * 10 + (c.toNat - 48)

/-- The value of the digit string `ds` accumulated on top of `n`. -/
def valFrom (n : Nat) (ds : List Char) : Nat := ds.foldl uint_step n

theorem valFrom_nil (n : Nat) : valFrom n [] = n := rfl

theorem valFrom_cons (n : Nat) (c : Char) (ds : List Char) :
    valFrom n (c :: ds) = valFrom (uint_step n c) ds := rfl

theorem le_valFrom (n : Nat) (ds : List Char) : n ≤ valFrom n ds := by
  induction ds generalizing n with
  | nil => simp [valFrom]
  | cons c tl ih =>
      rw [valFrom_cons]
      calc n ≤ uint_step n c := by unfold uint_step; omega
        _ ≤ valFrom (uint_step n c) tl := ih _

/-- `parse_uint_list` on a complete number: an all-digit prefix whose value
does not overflow, followed by either nothing or a non-digit. -/
theorem parse_uint_list_spec (ds : List Char) :
    ∀ (rest : List Char) (n len : Nat),
      (∀ c ∈ ds, is_ascii_digit c = true) →
      valFrom n ds ≤ UINT_MAX →
      (∀ c, rest.head? = some c → is_ascii_digit c = false) →
      VCF_tokenizer.parse_uint_list (ds ++ rest) n len =
        match rest with
        | [] => (.end_of_buffer, valFrom n ds, len + ds.length, none, [])
        | c :: rs => (.end_of_number, valFrom n ds, len + ds.length, some c, rs) := by
  induction ds with
  | nil =>
      intro rest n len _ _ hrest
      cases rest with
      | nil => simp [VCF_tokenizer.parse_uint_list, valFrom]
      | cons c rs =>
          have hc := hrest c rfl
          rw [← digit?_eq_none_iff] at hc
          simp [VCF_tokenizer.parse_uint_list, hc, valFrom]
  | cons d tl ih =>
      intro rest n len hds hmax hrest
      have hd : is_ascii_digit d = true := hds d (by simp)
      have hdig : VCF_tokenizer.digit? d = some (d.toNat - 48) :=
        (digit?_eq_some_iff d).mpr hd
      have hstep : uint_step n d ≤ UINT_MAX := by
        calc uint_step n d ≤ valFrom (uint_step n d) tl := le_valFrom _ _
          _ = valFrom n (d :: tl) := (valFrom_cons n d tl).symm
          _ ≤ UINT_MAX := hmax
      have hnotrig : ¬(n > UINT_MAX / 10 ∨ (n = UINT_MAX / 10 ∧ (d.toNat - 48) > UINT_MAX % 10)) := by
        simp only [is_ascii_digit, Bool.and_eq_true, decide_eq_true_eq] at hd
        unfold uint_step at hstep
        unfold UINT_MAX at hstep ⊢
        omega
      rw [List.cons_append]
      simp only [VCF_tokenizer.parse_uint_list, hdig]
      rw [if_neg hnotrig]
      have ihh := ih rest (uint_step n d) (len + 1)
        (fun c hc => hds c (by simp [hc])) (by rwa [← valFrom_cons]) hrest
      simp only [uint_step] at ihh
      rw [ihh]
      cases rest <;> simp [valFrom_cons, uint_step] <;> omega

/-- `parse_uint_list` overflows iff the digits read would exceed
`UINT_MAX` (sufficiency direction, fired at the first offending digit). -/
theorem parse_uint_list_overflow (ds : List Char) :
    ∀ (rest : List Char) (n len : Nat),
      (∀ c ∈ ds, is_ascii_digit c = true) →
      n ≤ UINT_MAX →
      valFrom n ds > UINT_MAX →
      (VCF_tokenizer.parse_uint_list (ds ++ rest) n len).1 = .integer_overflow := by
  induction ds with
  | nil =>
      intro rest n len _ hn hmax
      rw [valFrom_nil] at hmax
      omega
  | cons d tl ih =>
      intro rest n len hds hn hmax
      have hd : is_ascii_digit d = true := hds d (by simp)
      have hdig : VCF_tokenizer.digit? d = some (d.toNat - 48) :=
        (digit?_eq_some_iff d).mpr hd
      rw [List.cons_append]
      simp only [VCF_tokenizer.parse_uint_list, hdig]
      by_cases htrig : n > UINT_MAX / 10 ∨ (n = UINT_MAX / 10 ∧ (d.toNat - 48) > UINT_MAX % 10)
      · rw [if_pos htrig]
      · rw [if_neg htrig]
        have hstep : uint_step n d ≤ UINT_MAX := by
          simp only [is_ascii_digit, Bool.and_eq_true, decide_eq_true_eq] at hd
          unfold uint_step
          unfold UINT_MAX at htrig ⊢
          omega
        exact ih rest (uint_step n d) (len + 1)
          (fun c hc => hds c (by simp [hc])) hstep (by rwa [← valFrom_cons])

/-- `parse_uint` on a non-empty all-digit buffer holding a non-overflowing
number: the buffer is exhausted. -/
theorem parse_uint_complete_nil (tk : VCF_tokenizer) (ds : List Char) (n len : Nat)
    (hbuf : tk.buf = ds)
    (hds : ∀ c ∈ ds, is_ascii_digit c = true)
    (hval : valFrom n ds ≤ UINT_MAX)
    (hne : ds ≠ []) :
    tk.parse_uint n len =
      (.end_of_buffer, valFrom n ds, len + ds.length, { tk with buf := [] }) := by
  have hsp := parse_uint_list_spec ds [] n len hds hval (by intro c hc; simp at hc)
  rw [List.append_nil] at hsp
  have hemp : tk.buf.isEmpty = false := by
    rw [hbuf]
    cases h : ds with
    | nil => exact absurd h hne
    | cons a b => simp
  rw [hbuf] at hemp
  simp only [VCF_tokenizer.parse_uint, hbuf, hemp, Bool.false_eq_true, if_false]
  rw [hsp]

/-- `parse_uint` on a buffer holding a complete non-overflowing number
followed by its non-digit terminator byte. -/
theorem parse_uint_complete_cons (tk : VCF_tokenizer) (ds : List Char) (c : Char)
    (rs : List Char) (n len : Nat)
    (hbuf : tk.buf = ds ++ c :: rs)
    (hds : ∀ c ∈ ds, is_ascii_digit c = true)
    (hc : is_ascii_digit c = false)
    (hval : valFrom n ds ≤ UINT_MAX) :
    tk.parse_uint n len =
      (.end_of_number, valFrom n ds, len + ds.length,
        { tk.set_terminator_and_inc_line_num_if_newline c with buf := rs }) := by
  have hsp := parse_uint_list_spec ds (c :: rs) n len hds hval
    (by intro x hx; simp at hx; rwa [← hx])
  have hemp : tk.buf.isEmpty = false := by
    rw [hbuf]
    cases ds <;> simp
  rw [hbuf] at hemp
  simp only [VCF_tokenizer.parse_uint, hbuf, hemp, Bool.false_eq_true, if_false]
  rw [hsp]

/-- `parse_uint` on a buffer whose digit prefix overflows `UINT_MAX`. -/
theorem parse_uint_overflow (tk : VCF_tokenizer) (ds rest : List Char) (n len : Nat)
    (hbuf : tk.buf = ds ++ rest)
    (hds : ∀ c ∈ ds, is_ascii_digit c = true)
    (hn : n ≤ UINT_MAX)
    (hval : valFrom n ds > UINT_MAX) :
    (tk.parse_uint n len).1 = .integer_overflow := by
  have hne : ds ≠ [] := by
    intro h
    rw [h, valFrom_nil] at hval
    omega
  have hemp : tk.buf.isEmpty = false := by
    rw [hbuf]
    cases ds with
    | nil => exact absurd rfl hne
    | cons a b => simp
  have hov := parse_uint_list_overflow ds rest n len hds hn hval
  simp only [VCF_tokenizer.parse_uint, hemp, Bool.false_eq_true, if_false, hbuf]
  rcases hpul : VCF_tokenizer.parse_uint_list (ds ++ rest) n len with ⟨res, n2, len2, oc, rest2⟩
  rw [hpul] at hov
  simp at hov
  subst hov
  cases oc <;> simp [hne]

/-- C3: POS parsing postcondition.  With `pos = 0` and `number_len = 0` (as
set by `parse_loc`) and the buffer holding an all-digit prefix `ds` followed
by `rest` (empty at EOF, or starting with the non-digit terminator byte),
`continue_parsing_pos` returns: the overflow error iff the digits exceed
`UINT_MAX`; the missing-integer error iff there are zero digits; the
invalid-format error iff digits were read but the terminating byte is not a
tab; and otherwise `ok` with `get_pos()` the decimal value and the state
advanced to `parsing_id`.  When the digits run to the end of the buffer the
parse suspends and the continuation via `feed` of the EOF buffer reports the
EOF terminator as invalid format. -/
theorem C3_pos_spec (sc : VCF_scanner) (ds rest : List Char)
    (hstate : sc.state = parsing_pos)
    (hpos : sc.pos = 0) (hlen : sc.number_len = 0)
    (hbuf : sc.tokenizer.buf = ds ++ rest)
    (hds : ∀ c ∈ ds, is_ascii_digit c = true)
    (hrest : ∀ c, rest.head? = some c → is_ascii_digit c = false)
    (heof : rest = [] → sc.tokenizer.eof_reached = true) :
    (valFrom 0 ds > UINT_MAX →
      (VCF_scanner.continue_parsing_pos sc).1 = .error ∧
      (VCF_scanner.continue_parsing_pos sc).2.get_error =
        "Integer overflow in the POS column") ∧
    (ds = [] →
      (VCF_scanner.continue_parsing_pos sc).1 = .error ∧
      (VCF_scanner.continue_parsing_pos sc).2.get_error =
        "Missing an integer in the POS column") ∧
    (∀ c rs, ds ≠ [] → valFrom 0 ds ≤ UINT_MAX → rest = c :: rs → c ≠ '\t' →
      (VCF_scanner.continue_parsing_pos sc).1 = .error ∧
      (VCF_scanner.continue_parsing_pos sc).2.get_error =
        "Invalid data line format") ∧
    (∀ rs, ds ≠ [] → valFrom 0 ds ≤ UINT_MAX → rest = '\t' :: rs →
      (VCF_scanner.continue_parsing_pos sc).1 = .ok ∧
      (VCF_scanner.continue_parsing_pos sc).2.get_pos = valFrom 0 ds ∧
      (VCF_scanner.continue_parsing_pos sc).2.state = parsing_id) ∧
    (ds ≠ [] → valFrom 0 ds ≤ UINT_MAX → rest = [] →
      (VCF_scanner.continue_parsing_pos sc).1 = .need_more_data ∧
      ((VCF_scanner.continue_parsing_pos sc).2.feed []).1 = .error ∧
      ((VCF_scanner.continue_parsing_pos sc).2.feed []).2.get_error =
        "Invalid data line format") := by
  refine ⟨?_, ?_, ?_, ?_, ?_⟩
  · -- overflow
    intro hover
    have h1 := parse_uint_overflow sc.tokenizer ds rest 0 0 hbuf hds (by unfold UINT_MAX; omega) hover
    unfold VCF_scanner.continue_parsing_pos
    rw [hpos, hlen]
    rcases hpu : sc.tokenizer.parse_uint 0 0 with ⟨res, n2, len2, tk2⟩
    rw [hpu] at h1
    simp at h1
    subst h1
    simp [VCF_scanner.data_line_error, VCF_scanner.get_error]
  · -- zero digits
    intro hnil
    subst hnil
    cases hr : rest with
    | nil =>
        have he := heof hr
        subst hr
        unfold VCF_scanner.continue_parsing_pos
        rw [hpos, hlen]
        have hb : sc.tokenizer.buf = [] := by simpa using hbuf
        have : sc.tokenizer.parse_uint 0 0 =
            (.end_of_number, 0, 0, sc.tokenizer.set_terminator_eof) := by
          simp [VCF_tokenizer.parse_uint, hb, he]
        rw [this]
        simp [VCF_scanner.data_line_error, VCF_scanner.get_error]
    | cons c rs =>
        subst hr
        have hpc := parse_uint_complete_cons sc.tokenizer [] c rs 0 0 hbuf hds
          (by rw [← digit?_eq_none_iff]; rw [digit?_eq_none_iff]; exact hrest c rfl)
          (by unfold UINT_MAX; simp [valFrom])
        unfold VCF_scanner.continue_parsing_pos
        rw [hpos, hlen, hpc]
        simp [VCF_scanner.data_line_error, VCF_scanner.get_error, valFrom]
  · -- invalid terminator
    intro c rs hne hmax hr hc
    subst hr
    have hpc := parse_uint_complete_cons sc.tokenizer ds c rs 0 0 hbuf hds
      (hrest c rfl) hmax
    unfold VCF_scanner.continue_parsing_pos
    rw [hpos, hlen, hpc]
    have hlen9 : ds.length ≠ 0 := by
      cases ds
      · exact absurd rfl hne
      · simp
    have hterm : (sc.tokenizer.set_terminator_and_inc_line_num_if_newline c).terminator ≠ (9 : Int) := by
      unfold VCF_tokenizer.set_terminator_and_inc_line_num_if_newline
        VCF_tokenizer.set_terminator_byte
      intro hx
      apply hc
      apply char_toNat_inj
      rw [show ('\t').toNat = 9 from rfl]
      split at hx <;> simp at hx <;> omega
    simp [VCF_scanner.data_line_error, VCF_scanner.get_error, hlen9, hterm]
  · -- tab terminator: ok
    intro rs hne hmax hr
    subst hr
    have hpc := parse_uint_complete_cons sc.tokenizer ds '\t' rs 0 0 hbuf hds
      (hrest '\t' rfl) hmax
    unfold VCF_scanner.continue_parsing_pos
    rw [hpos, hlen, hpc]
    have hlen9 : ds.length ≠ 0 := by
      cases ds
      · exact absurd rfl hne
      · simp
    have hterm : (sc.tokenizer.set_terminator_and_inc_line_num_if_newline '\t').terminator = (9 : Int) := by
      unfold VCF_tokenizer.set_terminator_and_inc_line_num_if_newline
        VCF_tokenizer.set_terminator_byte
      simp
    simp [VCF_scanner.get_pos, hlen9, hterm]
  · -- digits to end of buffer: suspend, then EOF continuation
    intro hne hmax hr
    subst hr
    have hpc := parse_uint_complete_nil sc.tokenizer ds 0 0 (by simpa using hbuf) hds hmax hne
    have hlen9 : ds.length ≠ 0 := by
      cases ds
      · exact absurd rfl hne
      · simp
    have hres : VCF_scanner.continue_parsing_pos sc =
        (.need_more_data, { sc with
          pos := valFrom 0 ds
          number_len := ds.length
          tokenizer := { sc.tokenizer with buf := [] } }) := by
      unfold VCF_scanner.continue_parsing_pos
      rw [hpos, hlen, hpc]
      simp
    rw [hres]
    refine ⟨rfl, ?_⟩
    unfold VCF_scanner.feed
    rw [hstate]
    have h14 : parsing_pos ≠ parsing_genotypes := by decide
    have h6 : parsing_pos ≤ parsing_pos := le_refl _
    have h5 : ¬(parsing_pos < parsing_chrom) := by decide
    have h5b : parsing_pos ≠ parsing_chrom := by decide
    simp only [h14, if_false, h6, if_true, h5, h5b]
    have : ({ sc with
        pos := valFrom 0 ds
        number_len := ds.length
        tokenizer := { sc.tokenizer with buf := [] } } : VCF_scanner).tokenizer.set_new_buffer [] =
        { sc.tokenizer with buf := [], eof_reached := true } := by
      simp [VCF_tokenizer.set_new_buffer]
    unfold VCF_scanner.continue_parsing_pos
    simp only [VCF_tokenizer.set_new_buffer]
    have hpu2 : ({ sc.tokenizer with buf := ([] : List Char), eof_reached := List.isEmpty ([] : List Char) } : VCF_tokenizer).parse_uint (valFrom 0 ds) ds.length =
        (.end_of_number, valFrom 0 ds, ds.length,
          { sc.tokenizer with buf := [], eof_reached := true, terminator := CharEOF }) := by
      simp [VCF_tokenizer.parse_uint, VCF_tokenizer.set_terminator_eof]
    simp only [hpu2]
    have hterm : (CharEOF : Int) ≠ (9 : Int) := by decide
    simp [VCF_scanner.data_line_error, VCF_scanner.get_error, hlen9, hterm]

/-- Witness for C3: `"100\t"` parses to `POS = 100`, state `parsing_id`. -/
theorem C3_pos_spec_witness :
    (VCF_scanner.continue_parsing_pos
      { VCF_scanner.init with
        state := parsing_pos
        tokenizer := { VCF_tokenizer.init with buf := ['1', '0', '0', '\t'] } }).1 =
      .ok ∧
    (VCF_scanner.continue_parsing_pos
      { VCF_scanner.init with
        state := parsing_pos
        tokenizer := { VCF_tokenizer.init with buf := ['1', '0', '0', '\t'] } }).2.get_pos =
      100 := by
  have h := (C3_pos_spec
      { VCF_scanner.init with
        state := parsing_pos
        tokenizer := { VCF_tokenizer.init with buf := ['1', '0', '0', '\t'] } }
      ['1', '0', '0'] ['\t'] rfl rfl rfl rfl
      (by decide)
      (by intro c hc; simp at hc; subst hc; decide)
      (by intro hx; simp at hx)).2.2.2.1 [] (by decide) (by decide) rfl
  exact ⟨h.1, by rw [h.2.1]; decide⟩

/-! ### Claim C7: line-number law -/

theorem toNat_int_eq_ten (c : Char) : ((c.toNat : Int) = (10 : Int)) ↔ c = '\n' := by
  constructor
  · intro h
    apply char_toNat_inj
    rw [show ('\n').toNat = 10 from rfl]
    exact_mod_cast h
  · intro h
    subst h
    rfl

theorem parse_uint_list_end_some :
    ∀ (buf : List Char) (n len n2 len2 : Nat) (oc : Option Char) (rest : List Char),
      VCF_tokenizer.parse_uint_list buf n len = (.end_of_number, n2, len2, oc, rest) →
      ∃ c, oc = some c := by
  intro buf
  induction buf with
  | nil =>
      intro n len n2 len2 oc rest h
      simp [VCF_tokenizer.parse_uint_list] at h
  | cons c tl ih =>
      intro n len n2 len2 oc rest h
      simp only [VCF_tokenizer.parse_uint_list] at h
      cases hd : VCF_tokenizer.digit? c with
      | none =>
          rw [hd] at h
          simp at h
          exact ⟨c, h.2.2.1.symm⟩
      | some d =>
          rw [hd] at h
          simp only at h
          split at h
          · simp at h
          · exact ih _ _ _ _ _ _ h

/-- C7: the line-number law.  `get_line_number()` is 1 in the initial state;
`set_new_buffer` never changes it; a `prepare_token_or_accumulate` or
`skip_token` call increments it by exactly one iff it completes a token with
the `'\n'` terminator; `parse_uint` increments it by exactly one iff it ends
the number at a `'\n'` terminator; no operation changes it otherwise. -/
theorem C7_line_number_law :
    VCF_tokenizer.init.get_line_number = 1 ∧
    (∀ (tk : VCF_tokenizer) (b : List Char),
      (tk.set_new_buffer b).line_number = tk.line_number) ∧
    (∀ (tk : VCF_tokenizer) (eot : Option Nat),
      (tk.prepare_token_or_accumulate eot).2.line_number =
        tk.line_number +
          (if (tk.prepare_token_or_accumulate eot).1 = true ∧
              (tk.prepare_token_or_accumulate eot).2.terminator = (10 : Int)
           then 1 else 0)) ∧
    (∀ (tk : VCF_tokenizer) (eot : Option Nat),
      (tk.skip_token eot).2.line_number =
        tk.line_number +
          (if (tk.skip_token eot).1 = true ∧
              (tk.skip_token eot).2.terminator = (10 : Int)
           then 1 else 0)) ∧
    (∀ (tk : VCF_tokenizer) (n len : Nat),
      (tk.parse_uint n len).2.2.2.line_number =
        tk.line_number +
          (if (tk.parse_uint n len).1 = .end_of_number ∧
              (tk.parse_uint n len).2.2.2.terminator = (10 : Int)
           then 1 else 0)) := by
  refine ⟨rfl, fun tk b => rfl, fun tk eot => ?_, fun tk eot => ?_, fun tk n len => ?_⟩
  · cases eot with
    | none =>
        by_cases he : tk.eof_reached = false <;> by_cases ha : tk.accumulating <;>
          simp [VCF_tokenizer.prepare_token_or_accumulate,
            VCF_tokenizer.set_terminator_eof, he, ha, CharEOF]
    | some i =>
        by_cases hn : tk.buf[i]?.getD ' ' = '\n' <;>
          by_cases ha : tk.accumulating <;>
          simp [VCF_tokenizer.prepare_token_or_accumulate,
            VCF_tokenizer.set_terminator_and_inc_line_num_if_newline,
            VCF_tokenizer.set_terminator_byte, hn, ha, toNat_int_eq_ten]
  · cases eot with
    | none =>
        by_cases he : tk.eof_reached = false <;>
          simp [VCF_tokenizer.skip_token, VCF_tokenizer.set_terminator_eof, he, CharEOF]
    | some i =>
        by_cases hn : tk.buf[i]?.getD ' ' = '\n' <;>
          simp [VCF_tokenizer.skip_token,
            VCF_tokenizer.set_terminator_and_inc_line_num_if_newline,
            VCF_tokenizer.set_terminator_byte, hn, toNat_int_eq_ten]
  · by_cases hb : tk.buf.isEmpty
    · by_cases he : tk.eof_reached <;>
        simp [VCF_tokenizer.parse_uint, VCF_tokenizer.set_terminator_eof, hb, he, CharEOF]
    · rcases hpul : VCF_tokenizer.parse_uint_list tk.buf n len with
        ⟨res, n2, len2, oc, rest⟩
      cases res with
      | end_of_number =>
          obtain ⟨c, hc⟩ := parse_uint_list_end_some tk.buf n len n2 len2 oc rest hpul
          subst hc
          by_cases hn : c = '\n' <;>
            simp [VCF_tokenizer.parse_uint,
              VCF_tokenizer.set_terminator_and_inc_line_num_if_newline,
              VCF_tokenizer.set_terminator_byte, hb, hpul, hn, toNat_int_eq_ten]
      | integer_overflow =>
          cases oc <;> simp [VCF_tokenizer.parse_uint, hb, hpul]
      | end_of_buffer =>
          cases oc <;> simp [VCF_tokenizer.parse_uint, hb, hpul]

/-! ### Clean-token lemmas: `prepare_token_or_accumulate` and `skip_token`
on a buffer starting with a delimiter-free token -/

theorem find_char_from_set_clean (cls : Char → Bool) (T : List Char) (d : Char)
    (rest : List Char) (hT : ∀ c ∈ T, cls c = false) (hd : cls d = true) :
    VCF_tokenizer.find_char_from_set cls (T ++ d :: rest) = some T.length := by
  induction T with
  | nil => simp [VCF_tokenizer.find_char_from_set, hd]
  | cons c tl ih =>
      have hc : cls c = false := hT c (by simp)
      simp only [List.cons_append, VCF_tokenizer.find_char_from_set, hc,
        Bool.false_eq_true, if_false, List.append_eq]
      rw [ih (fun x hx => hT x (by simp [hx]))]
      simp

theorem getD_append_length (T : List Char) (d : Char) (rest : List Char) (x : Char) :
    (T ++ d :: rest).getD T.length x = d := by
  induction T with
  | nil => simp [List.getD]
  | cons c tl ih => simpa [List.getD] using ih

theorem getD_append_pred (T : List Char) (d : Char) (rest : List Char) (x c : Char)
    (h : T.getLast? = some c) :
    (T ++ d :: rest).getD (T.length - 1) x = c := by
  induction T with
  | nil => simp at h
  | cons a tl ih =>
      cases htl : tl with
      | nil =>
          rw [htl] at h
          simp at h
          subst h
          simp [List.getD]
      | cons b tl2 =>
          rw [htl] at h ih
          rw [List.getLast?_cons_cons] at h
          have h2 := ih h
          have hlen : (a :: b :: tl2).length - 1 = (b :: tl2).length - 1 + 1 := by
            simp
          rw [hlen, List.cons_append, List.getD_cons_succ]
          exact h2

theorem take_append_length (T : List Char) (rest : List Char) :
    (T ++ rest).take T.length = T := by
  induction T with
  | nil => simp
  | cons c tl ih => simp [ih]

theorem drop_append_length_succ (T : List Char) (d : Char) (rest : List Char) :
    (T ++ d :: rest).drop (T.length + 1) = rest := by
  induction T with
  | nil => simp
  | cons c tl ih => simpa using ih

/-- A byte terminator is never the `EOF` sentinel. -/
theorem byte_term_ne_eof (c : Char) : ((c.toNat : Int)) ≠ CharEOF := by
  unfold CharEOF
  omega

/-- `prepare_token_or_accumulate` on a non-accumulating tokenizer whose
buffer starts with a clean token `T` followed by a class byte `d` (with no
`"\r\n"` stripping applying): emits `T`, sets the terminator to `d`,
consumes through `d`. -/
theorem prepare_clean (tk : VCF_tokenizer) (cls : Char → Bool) (T : List Char)
    (d : Char) (rest : List Char)
    (hbuf : tk.buf = T ++ d :: rest)
    (hT : ∀ c ∈ T, cls c = false)
    (hd : cls d = true)
    (ha : tk.accumulating = false)
    (hcr : d = '\n' → T.getLast? ≠ some '\r') :
    tk.prepare_token_or_accumulate
        (VCF_tokenizer.find_char_from_set cls tk.buf) =
      (true, { tk.set_terminator_and_inc_line_num_if_newline d with
               token := T
               buf := rest }) := by
  have hgd : (T ++ d :: rest).getD T.length ' ' = d := getD_append_length T d rest ' '
  have hdrop : (T ++ d :: rest).drop (T.length + 1) = rest :=
    drop_append_length_succ T d rest
  have htake : (T ++ d :: rest).take T.length = T := take_append_length T (d :: rest)
  rw [hbuf, find_char_from_set_clean cls T d rest hT hd]
  simp only [VCF_tokenizer.prepare_token_or_accumulate, ha, Bool.false_eq_true]
  rw [hbuf, hgd, hdrop]
  have htok : (if 0 < T.length then
        if d = '\n' && (T ++ d :: rest).getD (T.length - 1) ' ' = '\r' then
          (T ++ d :: rest).take (T.length - 1)
        else (T ++ d :: rest).take T.length
      else []) = T := by
    cases hT0 : T with
    | nil => simp
    | cons t0 tl =>
        rw [← hT0]
        have hTne : T ≠ [] := by rw [hT0]; simp
        have hpos : 0 < T.length := List.length_pos.mpr hTne
        rw [if_pos hpos]
        have hin : (d = '\n' && (T ++ d :: rest).getD (T.length - 1) ' ' = '\r') = false := by
          by_cases hdn : d = '\n'
          · have hc : T.getLast? = some (T.getLast hTne) :=
              List.getLast?_eq_getLast T hTne
            rw [getD_append_pred T d rest ' ' _ hc]
            have hlr : T.getLast hTne ≠ '\r' := by
              intro hx
              exact hcr hdn (hx ▸ hc)
            simp [hdn, hlr]
          · simp [hdn]
        rw [hin]
        simp [htake]
  rw [htok, htake]
  simp

/-- `skip_token` on a buffer starting with a clean token followed by a class
byte: consumes through the byte and sets the terminator. -/
theorem skip_clean (tk : VCF_tokenizer) (cls : Char → Bool) (T : List Char)
    (d : Char) (rest : List Char)
    (hbuf : tk.buf = T ++ d :: rest)
    (hT : ∀ c ∈ T, cls c = false)
    (hd : cls d = true) :
    tk.skip_token (VCF_tokenizer.find_char_from_set cls tk.buf) =
      (true, { ({ tk with accumulating := false
                }).set_terminator_and_inc_line_num_if_newline d with
               buf := rest }) := by
  have hgd : (T ++ d :: rest).getD T.length ' ' = d := getD_append_length T d rest ' '
  have hdrop : (T ++ d :: rest).drop (T.length + 1) = rest :=
    drop_append_length_succ T d rest
  rw [hbuf, find_char_from_set_clean cls T d rest hT hd]
  simp only [VCF_tokenizer.skip_token]
  rw [hbuf, hgd, hdrop]

/-! ### Claim C10: list-field filtering and container reuse -/

/-- The sub-tokens of a list field joined by the separator byte. -/
def joinSep (sep : Char) : List (List Char) → List Char
  | [] => []
  | [t] => t
  | t :: ts => t ++ sep :: joinSep sep ts

/-- `token_is_dot` as a predicate on the token contents. -/
def is_dot_sub_token (t : List Char) : Bool :=
  t.isEmpty || (t.length = 1 && t.headD ' ' = '.')

theorem token_is_dot_eq (tk : VCF_tokenizer) :
    tk.token_is_dot = is_dot_sub_token tk.token := rfl

theorem is_dot_sub_token_iff (t : List Char) :
    is_dot_sub_token t = false ↔ (t ≠ [] ∧ t ≠ ['.']) := by
  cases t with
  | nil => simp [is_dot_sub_token]
  | cons c tl =>
      cases tl with
      | nil =>
          by_cases hc : c = '.'
          · subst hc
            simp [is_dot_sub_token]
          · simp [is_dot_sub_token, hc]
      | cons b tl2 => simp [is_dot_sub_token]

theorem take_set_succ (l : List (List Char)) (n : Nat) (a : List Char)
    (h : n < l.length) :
    (l.set n a).take (n + 1) = l.take n ++ [a] := by
  induction l generalizing n with
  | nil => simp at h
  | cons x xs ih =>
      cases n with
      | zero => simp
      | succ m =>
          simp only [List.set_cons_succ, List.take_succ_cons, List.cons_append]
          rw [ih m (by simpa using h)]

theorem take_append_singleton (l : List (List Char)) (a : List Char) :
    (l ++ [a]).take (l.length + 1) = l ++ [a] := by
  induction l with
  | nil => simp
  | cons x xs ih => simpa using ih

theorem resizeList_of_le (l : List (List Char)) (n : Nat) (h : n ≤ l.length) :
    VCF_scanner.resizeList l n = l.take n := by
  simp [VCF_scanner.resizeList, h]

theorem toNat_int_eq_nine (c : Char) : ((c.toNat : Int) = (9 : Int)) ↔ c = '\t' := by
  constructor
  · intro h
    apply char_toNat_inj
    rw [show ('\t').toNat = 9 from rfl]
    exact_mod_cast h
  · intro h
    subst h
    rfl

theorem parse_string_list_clean (cls : Char → Bool) (sep : Char)
    (hclsep : cls sep = true) (hclt : cls '\t' = true)
    (hs1 : sep ≠ '\n') (hs2 : sep ≠ '\t') :
    ∀ (tokens : List (List Char)) (sc : VCF_scanner)
      (container : List (List Char)) (suffix : List Char) (target : Nat),
      sc.tokenizer.accumulating = false →
      sc.tokenizer.buf = joinSep sep tokens ++ '\t' :: suffix →
      tokens ≠ [] →
      (∀ t ∈ tokens, ∀ c ∈ t, cls c = false) →
      sc.next_list_index ≤ container.length →
      (VCF_scanner.parse_string_list sc target container cls).1 = .ok ∧
      (VCF_scanner.parse_string_list sc target container cls).2.2 =
        container.take sc.next_list_index ++
          tokens.filter (fun t => !is_dot_sub_token t) ∧
      (VCF_scanner.parse_string_list sc target container cls).2.1.state = target := by
  intro tokens
  induction tokens with
  | nil =>
      intro sc container suffix target _ _ hne _ _
      exact absurd rfl hne
  | cons t ts ih =>
      intro sc container suffix target ha hbuf _ hclean hle
      cases hts : ts with
      | nil =>
          subst hts
          rw [show joinSep sep [t] = t from rfl] at hbuf
          have hprep := prepare_clean sc.tokenizer cls t '\t' suffix hbuf
            (hclean t (by simp)) hclt ha (by intro h; exact absurd h (by decide))
          have h9 : (('\t').toNat : Int) = 9 := by decide
          rw [VCF_scanner.parse_string_list, hprep]
          simp only [VCF_tokenizer.at_eol, VCF_tokenizer.set_terminator_and_inc_line_num_if_newline,
            VCF_tokenizer.set_terminator_byte, token_is_dot_eq]
          simp only [show ('\t' = '\n') = False by simp, if_false, h9]
          simp only [show ((9 : Int) = 10) = False by simp, show ((9 : Int) = CharEOF) = False by decide]
          simp only [Bool.false_eq_true, if_false, decide_False, Bool.or_self]
          by_cases hdot : is_dot_sub_token t = true
          · simp only [hdot, if_true, if_pos rfl]
            simp [resizeList_of_le container sc.next_list_index hle, List.filter,
              hdot]
          · have hdot2 : is_dot_sub_token t = false := by
              cases h : is_dot_sub_token t
              · rfl
              · exact absurd h hdot
            simp only [hdot2, Bool.false_eq_true, if_false]
            by_cases hlt : sc.next_list_index < container.length
            · simp only [hlt, if_true]
              have hres := resizeList_of_le (container.set sc.next_list_index t)
                (sc.next_list_index + 1) (by simpa using hlt)
              simp [hres, take_set_succ container sc.next_list_index t hlt,
                List.filter, hdot2]
            · have heq : sc.next_list_index = container.length := by omega
              simp only [hlt, if_false]
              have hres := resizeList_of_le (container ++ [t])
                (container.length + 1) (by simp)
              simp [heq, hres, take_append_singleton, List.filter, hdot2,
                List.take_length]
      | cons t2 ts2 =>
          rw [← hts]
          have htsne : ts ≠ [] := by rw [hts]; simp
          have hjoin : joinSep sep (t :: ts) = t ++ sep :: joinSep sep ts := by
            rw [hts]
            rfl
          rw [hjoin, List.append_assoc] at hbuf
          have hprep := prepare_clean sc.tokenizer cls t sep
            (joinSep sep ts ++ '\t' :: suffix) (by simpa using hbuf)
            (hclean t (by simp)) hclsep ha
            (by intro h; exact absurd h hs1)
          simp only [VCF_tokenizer.set_terminator_and_inc_line_num_if_newline,
            VCF_tokenizer.set_terminator_byte,
            show (sep = '\n') = False by simp [hs1], if_false] at hprep
          have hsep9 : ((sep.toNat : Int) = 9) = False := by
            simp [toNat_int_eq_nine, hs2]
          have hsep10 : ((sep.toNat : Int) = 10) = False := by
            simp [toNat_int_eq_ten, hs1]
          have hsepEOF : ((sep.toNat : Int) = CharEOF) = False := by
            simp [byte_term_ne_eof]
          rw [VCF_scanner.parse_string_list, hprep]
          simp only [VCF_tokenizer.at_eol, token_is_dot_eq]
          simp only [hsep9, hsep10, hsepEOF]
          simp only [Bool.false_eq_true, Bool.true_eq_false, if_false, decide_False,
            Bool.or_self, dite_false, not_false_eq_true, if_true, eq_self_iff_true,
            ne_eq]
          by_cases hdot : is_dot_sub_token t = true
          · simp only [hdot, eq_self_iff_true, if_true]
            have hih := ih
              { sc with
                tokenizer :=
                  ⟨joinSep sep ts ++ '\t' :: suffix, sc.tokenizer.eof_reached,
                    sc.tokenizer.accumulating, sc.tokenizer.accumulator, t,
                    (sep.toNat : Int), sc.tokenizer.line_number⟩ }
              container suffix target ha rfl htsne
              (fun x hx => hclean x (by simp [hx])) hle
            rw [if_pos (show ¬((sep.toNat : Int) = 9) by simp [hsep9])]
            refine ⟨hih.1, ?_, hih.2.2⟩
            rw [hih.2.1]
            simp [List.filter, hdot]
          · have hdot2 : is_dot_sub_token t = false := by
              cases h : is_dot_sub_token t
              · rfl
              · exact absurd h hdot
            simp only [hdot2, Bool.false_eq_true, if_false]
            by_cases hlt : sc.next_list_index < container.length
            · simp only [hlt, if_true]
              have hih := ih
                { sc with
                  tokenizer :=
                    ⟨joinSep sep ts ++ '\t' :: suffix, sc.tokenizer.eof_reached,
                      sc.tokenizer.accumulating, sc.tokenizer.accumulator, t,
                      (sep.toNat : Int), sc.tokenizer.line_number⟩
                  next_list_index := sc.next_list_index + 1 }
                (container.set sc.next_list_index t) suffix target ha rfl htsne
                (fun x hx => hclean x (by simp [hx]))
                (by simpa using hlt)
              rw [if_pos (show ¬((sep.toNat : Int) = 9) by simp [hsep9])]
              refine ⟨hih.1, ?_, hih.2.2⟩
              rw [hih.2.1]
              simp only [take_set_succ container sc.next_list_index t hlt]
              simp [List.filter, hdot2]
            · have heq : sc.next_list_index = container.length := by omega
              simp only [hlt, if_false]
              have hih := ih
                { sc with
                  tokenizer :=
                    ⟨joinSep sep ts ++ '\t' :: suffix, sc.tokenizer.eof_reached,
                      sc.tokenizer.accumulating, sc.tokenizer.accumulator, t,
                      (sep.toNat : Int), sc.tokenizer.line_number⟩
                  next_list_index := sc.next_list_index + 1 }
                (container ++ [t]) suffix target ha rfl htsne
                (fun x hx => hclean x (by simp [hx]))
                (by simp [heq])
              rw [if_pos (show ¬((sep.toNat : Int) = 9) by simp [hsep9])]
              refine ⟨hih.1, ?_, hih.2.2⟩
              rw [hih.2.1]
              simp only [heq, take_append_singleton]
              simp [List.filter, hdot2, List.take_length]

theorem keep_sub_token_iff (t : List Char) :
    (!is_dot_sub_token t) = decide (t ≠ [] ∧ t ≠ ['.']) := by
  cases h : is_dot_sub_token t
  · have h2 := (is_dot_sub_token_iff t).mp h
    simp [h2.1, h2.2]
  · have h2 : ¬(t ≠ [] ∧ t ≠ ['.']) := by
      intro hcon
      have h3 := (is_dot_sub_token_iff t).mpr hcon
      rw [h] at h3
      exact Bool.noConfusion h3
    simp [h2]

/-- C10: list-field filtering and reuse.  `parse_string_list` — used by
`parse_ids` (class `newline_or_tab_or_semicolon`), `parse_alleles`
(`newline_or_tab_or_comma` for ALT) and `parse_filters`
(`newline_or_tab_or_semicolon`) — drops every sub-token that is empty or
equal to `"."` regardless of its position, and the resulting container is
exactly the list of kept sub-tokens in input order for EVERY initial
container value (the vector is overwritten in place and truncated, so no
element of the previous contents survives). -/
theorem C10_list_field_filtering (cls : Char → Bool) (sep : Char)
    (tokens : List (List Char)) (sc : VCF_scanner)
    (container : List (List Char)) (suffix : List Char) (target : Nat)
    (hclsep : cls sep = true) (hclt : cls '\t' = true)
    (hs1 : sep ≠ '\n') (hs2 : sep ≠ '\t')
    (ha : sc.tokenizer.accumulating = false)
    (hnext : sc.next_list_index = 0)
    (hbuf : sc.tokenizer.buf = joinSep sep tokens ++ '\t' :: suffix)
    (hne : tokens ≠ [])
    (hclean : ∀ t ∈ tokens, ∀ c ∈ t, cls c = false) :
    (VCF_scanner.parse_string_list sc target container cls).1 = .ok ∧
    (VCF_scanner.parse_string_list sc target container cls).2.2 =
      tokens.filter (fun t => decide (t ≠ [] ∧ t ≠ ['.'])) ∧
    (VCF_scanner.parse_string_list sc target container cls).2.1.state = target := by
  have h := parse_string_list_clean cls sep hclsep hclt hs1 hs2 tokens sc container
    suffix target ha hbuf hne hclean (by rw [hnext]; exact Nat.zero_le _)
  refine ⟨h.1, ?_, h.2.2⟩
  rw [h.2.1, hnext]
  have hfun : (fun t => !is_dot_sub_token t) =
      (fun t => decide (t ≠ [] ∧ t ≠ ['.'])) := funext keep_sub_token_iff
  rw [hfun]
  simp

/-- Witness for C10: the ID-style field `"rs1;.;rs2;"` (sub-tokens `rs1`,
`.`, `rs2` and an empty one) parsed into a non-empty stale container yields
exactly `["rs1", "rs2"]`. -/
theorem C10_list_field_filtering_witness :
    (VCF_scanner.parse_string_list
      { VCF_scanner.init with
        tokenizer := { VCF_tokenizer.init with
          buf := ['r', 's', '1', ';', '.', ';', 'r', 's', '2', ';', '\t', 'x'] } }
      parsing_ref [['o', 'l', 'd'], ['q']]
      VCF_tokenizer.newline_or_tab_or_semicolon).1 = .ok ∧
    (VCF_scanner.parse_string_list
      { VCF_scanner.init with
        tokenizer := { VCF_tokenizer.init with
          buf := ['r', 's', '1', ';', '.', ';', 'r', 's', '2', ';', '\t', 'x'] } }
      parsing_ref [['o', 'l', 'd'], ['q']]
      VCF_tokenizer.newline_or_tab_or_semicolon).2.2 =
      [['r', 's', '1'], ['r', 's', '2']] := by
  have h := C10_list_field_filtering VCF_tokenizer.newline_or_tab_or_semicolon ';'
    [['r', 's', '1'], ['.'], ['r', 's', '2'], []]
    { VCF_scanner.init with
      tokenizer := { VCF_tokenizer.init with
        buf := ['r', 's', '1', ';', '.', ';', 'r', 's', '2', ';', '\t', 'x'] } }
    [['o', 'l', 'd'], ['q']] ['x'] parsing_ref
    (by decide) (by decide) (by decide) (by decide) rfl rfl rfl (by decide)
    (by decide)
  exact ⟨h.1, by rw [h.2.1]; decide⟩

/-! ### Claim C2: missing-field determinism -/

/-- `m` complete tab-terminated fields. -/
def joinTabs : List (List Char) → List Char
  | [] => []
  | f :: fs => f ++ '\t' :: joinTabs fs

/-- `skip_to_state_loop` on a data line that ends (at `'\n'`) after the
`fs` complete fields and the final field `G`, before the target column is
reached: the missing-mandatory-field error for the first missing column. -/
theorem skip_to_state_loop_missing (fs : List (List Char)) :
    ∀ (sc : VCF_scanner) (G suffix : List Char) (target : Nat),
      sc.tokenizer.buf = joinTabs fs ++ G ++ '\n' :: suffix →
      (∀ f ∈ fs, ∀ c ∈ f, VCF_tokenizer.newline_or_tab c = false) →
      (∀ c ∈ G, VCF_tokenizer.newline_or_tab c = false) →
      sc.state + fs.length < target →
      (VCF_scanner.skip_to_state_loop sc target).1 = .error ∧
      (VCF_scanner.skip_to_state_loop sc target).2.error_message =
        "Missing mandatory VCF field \"" ++
          get_header_line_column (sc.state + fs.length - parsing_chrom + 1) ++ "\"" ∧
      (VCF_scanner.skip_to_state_loop sc target).2.state = end_of_data_line := by
  induction fs with
  | nil =>
      intro sc G suffix target hbuf _ hG hlt
      have hlt2 : sc.state < target := by omega
      rw [show joinTabs [] ++ G ++ '\n' :: suffix = G ++ '\n' :: suffix from rfl] at hbuf
      have hskip := skip_clean sc.tokenizer VCF_tokenizer.newline_or_tab G '\n' suffix
        hbuf hG (by decide)
      simp only [VCF_tokenizer.set_terminator_and_inc_line_num_if_newline,
        VCF_tokenizer.set_terminator_byte,
        show (('\n' : Char) = '\n') = True by simp, if_true] at hskip
      rw [VCF_scanner.skip_to_state_loop, dif_pos hlt2, hskip]
      simp only [VCF_tokenizer.at_eol]
      simp only [show ((('\n').toNat : Int) = 10) = True by decide]
      simp only [Bool.true_eq_false, Bool.false_eq_true, dite_false, dite_true,
        not_false_eq_true, if_true, eq_self_iff_true, decide_True, Bool.true_or]
      simp [VCF_scanner.missing_mandatory_field_error, VCF_scanner.data_line_error]
  | cons f fs ih =>
      intro sc G suffix target hbuf hfs hG hlt
      have hlt2 : sc.state < target := by
        simp only [List.length_cons] at hlt
        omega
      rw [show joinTabs (f :: fs) = f ++ '\t' :: joinTabs fs from rfl,
        List.append_assoc] at hbuf
      have hskip := skip_clean sc.tokenizer VCF_tokenizer.newline_or_tab f '\t'
        (joinTabs fs ++ (G ++ '\n' :: suffix)) (by simpa [List.append_assoc] using hbuf)
        (hfs f (by simp)) (by decide)
      simp only [VCF_tokenizer.set_terminator_and_inc_line_num_if_newline,
        VCF_tokenizer.set_terminator_byte,
        show (('\t' : Char) = '\n') = False by simp, if_false] at hskip
      rw [VCF_scanner.skip_to_state_loop, dif_pos hlt2, hskip]
      simp only [VCF_tokenizer.at_eol]
      simp only [show ((('\t').toNat : Int) = 10) = False by decide,
        show ((('\t').toNat : Int) = CharEOF) = False by decide]
      simp only [Bool.true_eq_false, Bool.false_eq_true, dite_false, dite_true,
        not_false_eq_true, if_true, if_false, eq_self_iff_true, decide_False,
        Bool.or_self]
      have hfs2 : ∀ x ∈ fs, ∀ c ∈ x, VCF_tokenizer.newline_or_tab c = false :=
        fun x hx => hfs x (by simp [hx])
      have hlt3 : (sc.state + 1) + fs.length < target := by
        simp only [List.length_cons] at hlt
        omega
      have hih := ih
        { sc with
          tokenizer :=
            ⟨joinTabs fs ++ (G ++ '\n' :: suffix), sc.tokenizer.eof_reached, false,
              sc.tokenizer.accumulator, sc.tokenizer.token, (('\t').toNat : Int),
              sc.tokenizer.line_number⟩
          state := sc.state + 1 }
        G suffix target (by simp [List.append_assoc]) hfs2 hG hlt3
      refine ⟨hih.1, ?_, hih.2.2⟩
      rw [hih.2.1]
      have harith : sc.state + 1 + fs.length = sc.state + (f :: fs).length := by
        simp only [List.length_cons]
        omega
      rw [harith]

/-- The `fields_to_skip` resume loop of `feed` on a line that ends before
the remaining fields are skipped. -/
theorem feed_skip_loop_missing (fs : List (List Char)) :
    ∀ (sc : VCF_scanner) (G suffix : List Char),
      sc.tokenizer.buf = joinTabs fs ++ G ++ '\n' :: suffix →
      (∀ f ∈ fs, ∀ c ∈ f, VCF_tokenizer.newline_or_tab c = false) →
      (∀ c ∈ G, VCF_tokenizer.newline_or_tab c = false) →
      fs.length < sc.fields_to_skip →
      (VCF_scanner.feed_skip_loop sc).1 = .error ∧
      (VCF_scanner.feed_skip_loop sc).2.error_message =
        "Missing mandatory VCF field \"" ++
          get_header_line_column
            (sc.state - parsing_chrom + 1 - (sc.fields_to_skip - fs.length)) ++ "\"" ∧
      (VCF_scanner.feed_skip_loop sc).2.state = end_of_data_line ∧
      (VCF_scanner.feed_skip_loop sc).2.fields_to_skip = 0 := by
  induction fs with
  | nil =>
      intro sc G suffix hbuf _ hG hlt
      have hpos : 0 < sc.fields_to_skip := by simpa using hlt
      rw [show joinTabs [] ++ G ++ '\n' :: suffix = G ++ '\n' :: suffix from rfl] at hbuf
      have hskip := skip_clean sc.tokenizer VCF_tokenizer.newline_or_tab G '\n' suffix
        hbuf hG (by decide)
      simp only [VCF_tokenizer.set_terminator_and_inc_line_num_if_newline,
        VCF_tokenizer.set_terminator_byte,
        show (('\n' : Char) = '\n') = True by simp, if_true] at hskip
      rw [VCF_scanner.feed_skip_loop, dif_pos hpos, hskip]
      simp only [VCF_tokenizer.at_eol]
      simp only [show ((('\n').toNat : Int) = 10) = True by decide]
      simp only [Bool.true_eq_false, Bool.false_eq_true, dite_false, dite_true,
        not_false_eq_true, if_true, eq_self_iff_true, decide_True, Bool.true_or]
      simp [VCF_scanner.missing_mandatory_field_error, VCF_scanner.data_line_error]
  | cons f fs ih =>
      intro sc G suffix hbuf hfs hG hlt
      have hpos : 0 < sc.fields_to_skip := by
        simp only [List.length_cons] at hlt
        omega
      rw [show joinTabs (f :: fs) = f ++ '\t' :: joinTabs fs from rfl,
        List.append_assoc] at hbuf
      have hskip := skip_clean sc.tokenizer VCF_tokenizer.newline_or_tab f '\t'
        (joinTabs fs ++ (G ++ '\n' :: suffix)) (by simpa [List.append_assoc] using hbuf)
        (hfs f (by simp)) (by decide)
      simp only [VCF_tokenizer.set_terminator_and_inc_line_num_if_newline,
        VCF_tokenizer.set_terminator_byte,
        show (('\t' : Char) = '\n') = False by simp, if_false] at hskip
      rw [VCF_scanner.feed_skip_loop, dif_pos hpos, hskip]
      simp only [VCF_tokenizer.at_eol]
      simp only [show ((('\t').toNat : Int) = 10) = False by decide,
        show ((('\t').toNat : Int) = CharEOF) = False by decide]
      simp only [Bool.true_eq_false, Bool.false_eq_true, dite_false, dite_true,
        not_false_eq_true, if_true, if_false, eq_self_iff_true, decide_False,
        Bool.or_self]
      have hfs2 : ∀ x ∈ fs, ∀ c ∈ x, VCF_tokenizer.newline_or_tab c = false :=
        fun x hx => hfs x (by simp [hx])
      have hlt3 : fs.length < sc.fields_to_skip - 1 := by
        simp only [List.length_cons] at hlt
        omega
      have hih := ih
        { sc with
          tokenizer :=
            ⟨joinTabs fs ++ (G ++ '\n' :: suffix), sc.tokenizer.eof_reached, false,
              sc.tokenizer.accumulator, sc.tokenizer.token, (('\t').toNat : Int),
              sc.tokenizer.line_number⟩
          fields_to_skip := sc.fields_to_skip - 1 }
        G suffix (by simp [List.append_assoc]) hfs2 hG hlt3
      refine ⟨hih.1, ?_, hih.2.2⟩
      rw [hih.2.1]
      have harith : sc.state - parsing_chrom + 1 - (sc.fields_to_skip - 1 - fs.length) =
          sc.state - parsing_chrom + 1 - (sc.fields_to_skip - (f :: fs).length) := by
        simp only [List.length_cons]
        omega
      rw [harith]

/-- `feed` with a buffer resuming a pending skip (`fields_to_skip > 0`). -/
theorem feed_resume_missing (sc : VCF_scanner) (fs : List (List Char))
    (G suffix : List Char)
    (h14 : sc.state ≠ parsing_genotypes)
    (h6 : ¬(sc.state ≤ parsing_pos))
    (hfs : ∀ f ∈ fs, ∀ c ∈ f, VCF_tokenizer.newline_or_tab c = false)
    (hG : ∀ c ∈ G, VCF_tokenizer.newline_or_tab c = false)
    (hlt : fs.length < sc.fields_to_skip) :
    (sc.feed (joinTabs fs ++ G ++ '\n' :: suffix)).1 = .error ∧
    (sc.feed (joinTabs fs ++ G ++ '\n' :: suffix)).2.error_message =
      "Missing mandatory VCF field \"" ++
        get_header_line_column
          (sc.state - parsing_chrom + 1 - (sc.fields_to_skip - fs.length)) ++ "\"" ∧
    (sc.feed (joinTabs fs ++ G ++ '\n' :: suffix)).2.state = end_of_data_line ∧
    (sc.feed (joinTabs fs ++ G ++ '\n' :: suffix)).2.fields_to_skip = 0 := by
  have h := feed_skip_loop_missing fs
    { sc with tokenizer := sc.tokenizer.set_new_buffer (joinTabs fs ++ G ++ '\n' :: suffix) }
    G suffix rfl hfs hG hlt
  unfold VCF_scanner.feed
  simp only [h14, if_false, h6]
  exact h

/-- `feed` of the EOF buffer while a skip is pending: the line ends at EOF
before the target field. -/
theorem feed_eof_missing (sc : VCF_scanner)
    (h14 : sc.state ≠ parsing_genotypes)
    (h6 : ¬(sc.state ≤ parsing_pos))
    (hpos : 0 < sc.fields_to_skip) :
    (sc.feed []).1 = .error ∧
    (sc.feed []).2.error_message =
      "Missing mandatory VCF field \"" ++
        get_header_line_column
          (sc.state - parsing_chrom + 1 - sc.fields_to_skip) ++ "\"" ∧
    (sc.feed []).2.state = end_of_data_line ∧
    (sc.feed []).2.fields_to_skip = 0 := by
  unfold VCF_scanner.feed
  simp only [h14, if_false, h6]
  rw [VCF_scanner.feed_skip_loop, dif_pos hpos]
  simp only [VCF_tokenizer.set_new_buffer, VCF_tokenizer.skip_token,
    VCF_tokenizer.find_char_from_set, VCF_tokenizer.set_terminator_eof,
    List.isEmpty_nil]
  simp only [VCF_tokenizer.at_eol, CharEOF]
  simp only [Bool.true_eq_false, Bool.false_eq_true, dite_false, dite_true,
    not_false_eq_true, if_true, if_false, eq_self_iff_true, decide_True,
    Bool.or_true, Bool.true_or,
    show (((-1 : Int) = 10)) = False by decide]
  simp [VCF_scanner.missing_mandatory_field_error, VCF_scanner.data_line_error]

/-- C2: missing-field determinism.  If a data line ends at a newline after
the complete fields `fs` and final field `G`, before the skip driven by a
`parse_*` call reaches its target column, then `skip_to_state` (invoked with
`parsing_chrom ≤ state ≤ target`) reports exactly
`Missing mandatory VCF field "<NAME>"`, where `<NAME>` is the entry of the
fixed column-name table for the first missing column, and moves the machine
to `end_of_data_line`; the same holds when the skip resumes across `feed`
calls via `fields_to_skip`, and when the line instead ends at EOF. -/
theorem C2_missing_field_determinism :
    (∀ (sc : VCF_scanner) (fs : List (List Char)) (G suffix : List Char)
        (target : Nat),
      parsing_chrom ≤ sc.state →
      sc.state ≤ target →
      sc.tokenizer.buf = joinTabs fs ++ G ++ '\n' :: suffix →
      (∀ f ∈ fs, ∀ c ∈ f, VCF_tokenizer.newline_or_tab c = false) →
      (∀ c ∈ G, VCF_tokenizer.newline_or_tab c = false) →
      sc.state + fs.length < target →
      (VCF_scanner.skip_to_state sc target).1 = .error ∧
      (VCF_scanner.skip_to_state sc target).2.get_error =
        "Missing mandatory VCF field \"" ++
          get_header_line_column (sc.state + fs.length - parsing_chrom + 1) ++ "\"" ∧
      (VCF_scanner.skip_to_state sc target).2.state = end_of_data_line) ∧
    (∀ (sc : VCF_scanner) (fs : List (List Char)) (G suffix : List Char),
      sc.state ≠ parsing_genotypes →
      ¬(sc.state ≤ parsing_pos) →
      (∀ f ∈ fs, ∀ c ∈ f, VCF_tokenizer.newline_or_tab c = false) →
      (∀ c ∈ G, VCF_tokenizer.newline_or_tab c = false) →
      fs.length < sc.fields_to_skip →
      (sc.feed (joinTabs fs ++ G ++ '\n' :: suffix)).1 = .error ∧
      (sc.feed (joinTabs fs ++ G ++ '\n' :: suffix)).2.get_error =
        "Missing mandatory VCF field \"" ++
          get_header_line_column
            (sc.state - parsing_chrom + 1 - (sc.fields_to_skip - fs.length)) ++ "\"" ∧
      (sc.feed (joinTabs fs ++ G ++ '\n' :: suffix)).2.state = end_of_data_line) ∧
    (∀ (sc : VCF_scanner),
      sc.state ≠ parsing_genotypes →
      ¬(sc.state ≤ parsing_pos) →
      0 < sc.fields_to_skip →
      (sc.feed []).1 = .error ∧
      (sc.feed []).2.get_error =
        "Missing mandatory VCF field \"" ++
          get_header_line_column
            (sc.state - parsing_chrom + 1 - sc.fields_to_skip) ++ "\"" ∧
      (sc.feed []).2.state = end_of_data_line) := by
  refine ⟨?_, ?_, ?_⟩
  · intro sc fs G suffix target h5 hst hbuf hfs hG hlt
    have h := skip_to_state_loop_missing fs sc G suffix target hbuf hfs hG hlt
    unfold VCF_scanner.skip_to_state
    rw [if_neg (by omega), if_neg (by omega)]
    exact ⟨h.1, h.2.1, h.2.2⟩
  · intro sc fs G suffix h14 h6 hfs hG hlt
    have h := feed_resume_missing sc fs G suffix h14 h6 hfs hG hlt
    exact ⟨h.1, h.2.1, h.2.2.1⟩
  · intro sc h14 h6 hpos
    have h := feed_eof_missing sc h14 h6 hpos
    exact ⟨h.1, h.2.1, h.2.2.1⟩

/-- Witness for C2: a record whose line ends after the ID and REF fields;
`parse_filters`-style skipping from `parsing_id` to `parsing_filter` reports
the first missing mandatory column, `ALT`. -/
theorem C2_missing_field_determinism_witness :
    (VCF_scanner.skip_to_state
      { VCF_scanner.init with
        state := parsing_id
        tokenizer := { VCF_tokenizer.init with
          buf := ['r', 's', '1', '\t', 'C', '\n', 'z'] } }
      parsing_filter).1 = .error ∧
    (VCF_scanner.skip_to_state
      { VCF_scanner.init with
        state := parsing_id
        tokenizer := { VCF_tokenizer.init with
          buf := ['r', 's', '1', '\t', 'C', '\n', 'z'] } }
      parsing_filter).2.get_error = "Missing mandatory VCF field \"ALT\"" ∧
    (VCF_scanner.skip_to_state
      { VCF_scanner.init with
        state := parsing_id
        tokenizer := { VCF_tokenizer.init with
          buf := ['r', 's', '1', '\t', 'C', '\n', 'z'] } }
      parsing_filter).2.state = end_of_data_line := by
  have h := C2_missing_field_determinism.1
    { VCF_scanner.init with
      state := parsing_id
      tokenizer := { VCF_tokenizer.init with
        buf := ['r', 's', '1', '\t', 'C', '\n', 'z'] } }
    [['r', 's', '1']] ['C'] ['z'] parsing_filter
    (by decide) (by decide) rfl (by decide) (by decide) (by decide)
  exact ⟨h.1, by rw [h.2.1]; rfl, h.2.2⟩

/-! ### Claim C6: FORMAT with no samples -/

/-- Counterexample to C6: a data line whose FORMAT column ends the line
while the header declared no samples.  The claim predicts the error
`No genotype information present`; the code returns `ok` (with
`end_of_data_line`), raising that error only when `sample_ids` is
non-empty. -/
theorem C6_counterexample :
    (VCF_scanner.continue_parsing_genotype_format
      { VCF_scanner.init with
        state := parsing_genotype_format
        tokenizer := { VCF_tokenizer.init with buf := ['G', 'T', '\n', 'X'] } }).1
      = .ok ∧
    (VCF_scanner.continue_parsing_genotype_format
      { VCF_scanner.init with
        state := parsing_genotype_format
        tokenizer := { VCF_tokenizer.init with buf := ['G', 'T', '\n', 'X'] } }).1
      ≠ .error ∧
    (VCF_scanner.continue_parsing_genotype_format
      { VCF_scanner.init with
        state := parsing_genotype_format
        tokenizer := { VCF_tokenizer.init with buf := ['G', 'T', '\n', 'X'] } }).2.get_error
      ≠ "No genotype information present" ∧
    (VCF_scanner.continue_parsing_genotype_format
      { VCF_scanner.init with
        state := parsing_genotype_format
        tokenizer := { VCF_tokenizer.init with buf := ['G', 'T', '\n', 'X'] } }).2.state
      = end_of_data_line := by
  have hprep := prepare_clean { VCF_tokenizer.init with buf := ['G', 'T', '\n', 'X'] }
    VCF_tokenizer.newline_or_tab_or_colon ['G', 'T'] '\n' ['X']
    rfl (by decide) (by decide) rfl (fun _ => by decide)
  simp only [VCF_tokenizer.set_terminator_and_inc_line_num_if_newline,
    VCF_tokenizer.set_terminator_byte,
    show (('\n' : Char) = '\n') = True by simp, if_true] at hprep
  rw [VCF_scanner.continue_parsing_genotype_format]
  rw [show ({ VCF_scanner.init with
        state := parsing_genotype_format
        tokenizer :=
          { VCF_tokenizer.init with buf := ['G', 'T', '\n', 'X'] } } :
      VCF_scanner).tokenizer =
    { VCF_tokenizer.init with buf := ['G', 'T', '\n', 'X'] } from rfl]
  rw [hprep]
  simp only [VCF_tokenizer.at_eol]
  simp only [show ((('\n').toNat : Int) = 10) = True by decide]
  simp only [Bool.true_eq_false, Bool.false_eq_true, dite_false, dite_true,
    not_false_eq_true, if_true, eq_self_iff_true, decide_True, Bool.true_or]
  simp [VCF_scanner.get_error, VCF_scanner.init]

/-- C6 (amended): when the FORMAT column of a data line ends at a newline,
`continue_parsing_genotype_format` returns `ok` and moves to
`end_of_data_line` when the header declared no samples, and raises the
error `No genotype information present` exactly when `sample_ids` is
non-empty; `continue_parsing_info` at a line ending (FORMAT column absent)
returns `ok` at `end_of_data_line` unconditionally. -/
theorem C6_format_no_samples_spec :
    (∀ (sc : VCF_scanner) (F suffix : List Char),
      sc.tokenizer.buf = F ++ '\n' :: suffix →
      (∀ c ∈ F, VCF_tokenizer.newline_or_tab_or_colon c = false) →
      F.getLast? ≠ some '\r' →
      sc.tokenizer.accumulating = false →
      sc.sample_ids = [] →
      (VCF_scanner.continue_parsing_genotype_format sc).1 = .ok ∧
      (VCF_scanner.continue_parsing_genotype_format sc).2.state = end_of_data_line) ∧
    (∀ (sc : VCF_scanner) (F suffix : List Char),
      sc.tokenizer.buf = F ++ '\n' :: suffix →
      (∀ c ∈ F, VCF_tokenizer.newline_or_tab_or_colon c = false) →
      F.getLast? ≠ some '\r' →
      sc.tokenizer.accumulating = false →
      sc.sample_ids ≠ [] →
      (VCF_scanner.continue_parsing_genotype_format sc).1 = .error ∧
      (VCF_scanner.continue_parsing_genotype_format sc).2.get_error =
        "No genotype information present" ∧
      (VCF_scanner.continue_parsing_genotype_format sc).2.state = end_of_data_line) ∧
    (∀ (sc : VCF_scanner) (I suffix : List Char),
      sc.tokenizer.buf = I ++ '\n' :: suffix →
      (∀ c ∈ I, VCF_tokenizer.newline_or_tab_or_semicolon c = false) →
      I.getLast? ≠ some '\r' →
      sc.tokenizer.accumulating = false →
      (VCF_scanner.continue_parsing_info sc).1 = .ok ∧
      (VCF_scanner.continue_parsing_info sc).2.state = end_of_data_line) := by
  refine ⟨?_, ?_, ?_⟩
  · intro sc F suffix hbuf hF hcr ha hemp
    have hprep := prepare_clean sc.tokenizer VCF_tokenizer.newline_or_tab_or_colon
      F '\n' suffix hbuf hF (by decide) ha (fun _ => hcr)
    simp only [VCF_tokenizer.set_terminator_and_inc_line_num_if_newline,
      VCF_tokenizer.set_terminator_byte,
      show (('\n' : Char) = '\n') = True by simp, if_true] at hprep
    rw [VCF_scanner.continue_parsing_genotype_format, hprep]
    simp only [VCF_tokenizer.at_eol]
    simp only [show ((('\n').toNat : Int) = 10) = True by decide]
    simp only [Bool.true_eq_false, Bool.false_eq_true, dite_false, dite_true,
      not_false_eq_true, if_true, eq_self_iff_true, decide_True, Bool.true_or]
    simp [hemp]
  · intro sc F suffix hbuf hF hcr ha hne
    have hprep := prepare_clean sc.tokenizer VCF_tokenizer.newline_or_tab_or_colon
      F '\n' suffix hbuf hF (by decide) ha (fun _ => hcr)
    simp only [VCF_tokenizer.set_terminator_and_inc_line_num_if_newline,
      VCF_tokenizer.set_terminator_byte,
      show (('\n' : Char) = '\n') = True by simp, if_true] at hprep
    rw [VCF_scanner.continue_parsing_genotype_format, hprep]
    simp only [VCF_tokenizer.at_eol]
    simp only [show ((('\n').toNat : Int) = 10) = True by decide]
    simp only [Bool.true_eq_false, Bool.false_eq_true, dite_false, dite_true,
      not_false_eq_true, if_true, eq_self_iff_true, decide_True, Bool.true_or]
    have hie : sc.sample_ids.isEmpty = false := by
      cases h : sc.sample_ids with
      | nil => exact absurd h hne
      | cons a l => simp
    simp [hie, VCF_scanner.data_line_error, VCF_scanner.get_error]
  · intro sc I suffix hbuf hI hcr ha
    have hprep := prepare_clean sc.tokenizer VCF_tokenizer.newline_or_tab_or_semicolon
      I '\n' suffix hbuf hI (by decide) ha (fun _ => hcr)
    simp only [VCF_tokenizer.set_terminator_and_inc_line_num_if_newline,
      VCF_tokenizer.set_terminator_byte,
      show (('\n' : Char) = '\n') = True by simp, if_true] at hprep
    rw [VCF_scanner.continue_parsing_info, hprep]
    simp only [VCF_tokenizer.at_eol]
    simp only [show ((('\n').toNat : Int) = 10) = True by decide]
    simp only [Bool.true_eq_false, Bool.false_eq_true, dite_false, dite_true,
      not_false_eq_true, if_true, eq_self_iff_true, decide_True, Bool.true_or]
    simp

/-- Witness for C6: a FORMAT column ending the line with one declared
sample raises `No genotype information present`. -/
theorem C6_format_no_samples_spec_witness :
    (VCF_scanner.continue_parsing_genotype_format
      { VCF_scanner.init with
        state := parsing_genotype_format
        sample_ids := [['S', '1']]
        tokenizer := { VCF_tokenizer.init with buf := ['G', 'T', '\n', 'X'] } }).1
      = .error ∧
    (VCF_scanner.continue_parsing_genotype_format
      { VCF_scanner.init with
        state := parsing_genotype_format
        sample_ids := [['S', '1']]
        tokenizer := { VCF_tokenizer.init with buf := ['G', 'T', '\n', 'X'] } }).2.get_error
      = "No genotype information present" := by
  have h := C6_format_no_samples_spec.2.1
    { VCF_scanner.init with
      state := parsing_genotype_format
      sample_ids := [['S', '1']]
      tokenizer := { VCF_tokenizer.init with buf := ['G', 'T', '\n', 'X'] } }
    ['G', 'T'] ['X'] rfl (by decide) (by decide) rfl (by decide)
  exact ⟨h.1, h.2.1⟩

/-! ### Claim C4: header-line column postcondition -/

/-- The expected header column-name tokens with indices `k, …, k+n-1`. -/
def header_line_columns_from (k n : Nat) : List (List Char) :=
  (List.range' k n).map (fun i => (get_header_line_column i).toList)

theorem colname_clean (i : Nat) :
    ∀ c ∈ (get_header_line_column i).toList,
      VCF_tokenizer.newline_or_tab c = false := by
  match i with
  | 0 | 1 | 2 | 3 | 4 | 5 | 6 | 7 | 8 | 9 => decide
  | n + 10 =>
      intro c hc
      rw [get_header_line_column, List.getD_eq_default] at hc
      · rw [show ("" : String).toList = [] from rfl] at hc
        exact absurd hc (List.not_mem_nil c)
      · simp

theorem colname_cr (i : Nat) :
    (get_header_line_column i).toList.getLast? ≠ some '\r' := by
  match i with
  | 0 | 1 | 2 | 3 | 4 | 5 | 6 | 7 | 8 | 9 => decide
  | n + 10 =>
      rw [get_header_line_column, List.getD_eq_default]
      · decide
      · simp

/-- The `parsing_sample_ids` loop consumes every remaining tab-separated
token of the header line as a sample ID, in order. -/
theorem hdr_sample_ids_run (samples : List (List Char)) :
    ∀ (sc : VCF_scanner) (suffix : List Char),
      sc.tokenizer.accumulating = false →
      sc.tokenizer.buf = joinSep '\t' samples ++ '\n' :: suffix →
      samples ≠ [] →
      (∀ t ∈ samples, ∀ c ∈ t, VCF_tokenizer.newline_or_tab c = false) →
      (∀ t ∈ samples, t.getLast? ≠ some '\r') →
      suffix ≠ [] →
      (VCF_scanner.hdr_sample_ids sc).1 = .ok ∧
      (VCF_scanner.hdr_sample_ids sc).2.sample_ids = sc.sample_ids ++ samples ∧
      (VCF_scanner.hdr_sample_ids sc).2.genotype_info_present =
        sc.genotype_info_present ∧
      (VCF_scanner.hdr_sample_ids sc).2.state = parsing_chrom := by
  induction samples with
  | nil => intro sc suffix _ _ hne _ _ _; exact absurd rfl hne
  | cons t ts ih =>
      intro sc suffix ha hbuf _ hclean hcr hsuf
      cases hts : ts with
      | nil =>
          subst hts
          rw [show joinSep '\t' [t] = t from rfl] at hbuf
          have hprep := prepare_clean sc.tokenizer VCF_tokenizer.newline_or_tab
            t '\n' suffix hbuf (hclean t (by simp)) (by decide) ha
            (fun _ => hcr t (by simp))
          simp only [VCF_tokenizer.set_terminator_and_inc_line_num_if_newline,
            VCF_tokenizer.set_terminator_byte,
            show (('\n' : Char) = '\n') = True by simp, if_true] at hprep
          rw [VCF_scanner.hdr_sample_ids, hprep]
          simp only [show ((('\n').toNat : Int) = 9) = False by decide]
          simp only [Bool.true_eq_false, Bool.false_eq_true, dite_false,
            dite_true, not_false_eq_true, if_true, if_false, eq_self_iff_true]
          have hse : suffix.isEmpty = false := by
            cases suffix with
            | nil => exact absurd rfl hsuf
            | cons a l => rfl
          simp [VCF_scanner.hdr_end_of_header_line, VCF_tokenizer.buffer_is_empty,
            hse, VCF_scanner.reset_state_for_next_data_line]
      | cons t2 ts2 =>
          have hj : joinSep '\t' (t :: ts) = t ++ '\t' :: joinSep '\t' ts := by
            rw [hts]; rfl
          rw [hj, List.append_assoc] at hbuf
          have hprep := prepare_clean sc.tokenizer VCF_tokenizer.newline_or_tab
            t '\t' (joinSep '\t' ts ++ '\n' :: suffix) hbuf (hclean t (by simp))
            (by decide) ha (fun h => absurd h (by decide))
          simp only [VCF_tokenizer.set_terminator_and_inc_line_num_if_newline,
            VCF_tokenizer.set_terminator_byte,
            show (('\t' : Char) = '\n') = False by simp, if_false] at hprep
          rw [VCF_scanner.hdr_sample_ids, hprep]
          simp only [show ((('\t').toNat : Int) = 9) = True by decide]
          simp only [Bool.true_eq_false, Bool.false_eq_true, dite_false,
            dite_true, not_false_eq_true, if_true, eq_self_iff_true]
          have hih := ih
            { sc with
              tokenizer :=
                ⟨joinSep '\t' ts ++ '\n' :: suffix, sc.tokenizer.eof_reached,
                  sc.tokenizer.accumulating, sc.tokenizer.accumulator, t,
                  (('\t').toNat : Int), sc.tokenizer.line_number⟩
              sample_ids := sc.sample_ids ++ [t] }
            suffix ha rfl (by rw [hts]; simp)
            (fun x hx => hclean x (by simp [hx]))
            (fun x hx => hcr x (by simp [hx])) hsuf
          refine ⟨hih.1, ?_, hih.2.2⟩
          rw [hih.2.1]
          simp
          exact hts

/-- The `parsing_header_line_columns` loop on exactly the remaining
mandatory columns, line ending after `INFO`. -/
theorem hdr_columns_exact (n : Nat) :
    ∀ (k : Nat) (sc : VCF_scanner) (suffix : List Char),
      k + n = number_of_mandatory_columns →
      0 < n →
      sc.header_line_column_ok = k →
      sc.tokenizer.accumulating = false →
      sc.tokenizer.buf = joinSep '\t' (header_line_columns_from k n) ++ '\n' :: suffix →
      suffix ≠ [] →
      (VCF_scanner.hdr_columns sc).1 = .ok ∧
      (VCF_scanner.hdr_columns sc).2.genotype_info_present =
        sc.genotype_info_present ∧
      (VCF_scanner.hdr_columns sc).2.sample_ids = sc.sample_ids ∧
      (VCF_scanner.hdr_columns sc).2.state = parsing_chrom := by
  induction n with
  | zero => intro k sc suffix _ hpos _ _ _ _; exact absurd hpos (by decide)
  | succ m ih =>
      intro k sc suffix hk8 _ hk ha hbuf hsuf
      cases m with
      | zero =>
          have hk7 : k = 7 := by
            simp only [number_of_mandatory_columns] at hk8
            omega
          subst hk7
          rw [show joinSep '\t' (header_line_columns_from 7 1) =
              (get_header_line_column 7).toList from rfl] at hbuf
          have hprep := prepare_clean sc.tokenizer VCF_tokenizer.newline_or_tab
            (get_header_line_column 7).toList '\n' suffix hbuf (colname_clean 7)
            (by decide) ha (fun _ => colname_cr 7)
          simp only [VCF_tokenizer.set_terminator_and_inc_line_num_if_newline,
            VCF_tokenizer.set_terminator_byte,
            show (('\n' : Char) = '\n') = True by simp, if_true] at hprep
          rw [VCF_scanner.hdr_columns, hprep, hk]
          simp only [VCF_tokenizer.at_eol]
          simp only [show ((('\n').toNat : Int) = 10) = True by decide]
          simp only [Bool.true_eq_false, Bool.false_eq_true, dite_false,
            dite_true, not_false_eq_true, if_true, if_false, eq_self_iff_true,
            decide_True, Bool.true_or, ne_eq, not_true_eq_false,
            show (7 + 1 < number_of_mandatory_columns) = False by decide,
            show (7 + 1 > number_of_mandatory_columns) = False by decide]
          have hse : suffix.isEmpty = false := by
            cases suffix with
            | nil => exact absurd rfl hsuf
            | cons a l => rfl
          simp [VCF_scanner.hdr_end_of_header_line, VCF_tokenizer.buffer_is_empty,
            hse, VCF_scanner.reset_state_for_next_data_line]
      | succ m2 =>
          have hj : joinSep '\t' (header_line_columns_from k (m2 + 1 + 1)) =
              (get_header_line_column k).toList ++
                '\t' :: joinSep '\t' (header_line_columns_from (k + 1) (m2 + 1)) := by
            rfl
          rw [hj, List.append_assoc] at hbuf
          have hprep := prepare_clean sc.tokenizer VCF_tokenizer.newline_or_tab
            (get_header_line_column k).toList '\t'
            (joinSep '\t' (header_line_columns_from (k + 1) (m2 + 1)) ++ '\n' :: suffix)
            hbuf (colname_clean k) (by decide) ha (fun h => absurd h (by decide))
          simp only [VCF_tokenizer.set_terminator_and_inc_line_num_if_newline,
            VCF_tokenizer.set_terminator_byte,
            show (('\t' : Char) = '\n') = False by simp, if_false] at hprep
          rw [VCF_scanner.hdr_columns, hprep, hk]
          simp only [VCF_tokenizer.at_eol]
          simp only [show ((('\t').toNat : Int) = 10) = False by decide,
            show ((('\t').toNat : Int) = CharEOF) = False by decide]
          simp only [Bool.true_eq_false, Bool.false_eq_true, dite_false,
            dite_true, not_false_eq_true, if_true, if_false, eq_self_iff_true,
            decide_False, Bool.or_self, ne_eq, not_true_eq_false]
          rw [if_pos (show k + 1 ≤ number_of_mandatory_columns by
            simp only [number_of_mandatory_columns] at hk8 ⊢; omega)]
          have hih := ih (k + 1)
            { sc with
              tokenizer :=
                ⟨joinSep '\t' (header_line_columns_from (k + 1) (m2 + 1)) ++ '\n' :: suffix,
                  sc.tokenizer.eof_reached, sc.tokenizer.accumulating,
                  sc.tokenizer.accumulator, (get_header_line_column k).toList,
                  (('\t').toNat : Int), sc.tokenizer.line_number⟩
              header_line_column_ok := k + 1 }
            suffix (by simp only [number_of_mandatory_columns] at hk8 ⊢; omega)
            (by omega) rfl ha rfl hsuf
          exact hih

/-- The `parsing_header_line_columns` loop on the remaining mandatory
columns followed by `FORMAT`, line ending right after `FORMAT`. -/
theorem hdr_columns_format_eol (n : Nat) :
    ∀ (k : Nat) (sc : VCF_scanner) (suffix : List Char),
      k + n = number_of_mandatory_columns →
      sc.header_line_column_ok = k →
      sc.tokenizer.accumulating = false →
      sc.tokenizer.buf =
        joinSep '\t' (header_line_columns_from k (n + 1)) ++ '\n' :: suffix →
      suffix ≠ [] →
      (VCF_scanner.hdr_columns sc).1 = .ok ∧
      (VCF_scanner.hdr_columns sc).2.genotype_info_present = true ∧
      (VCF_scanner.hdr_columns sc).2.sample_ids = sc.sample_ids ∧
      (VCF_scanner.hdr_columns sc).2.state = parsing_chrom := by
  induction n with
  | zero =>
      intro k sc suffix hk8 hk ha hbuf hsuf
      have hk8' : k = 8 := by
        simp only [number_of_mandatory_columns] at hk8
        omega
      subst hk8'
      rw [show joinSep '\t' (header_line_columns_from 8 1) =
          (get_header_line_column 8).toList from rfl] at hbuf
      have hprep := prepare_clean sc.tokenizer VCF_tokenizer.newline_or_tab
        (get_header_line_column 8).toList '\n' suffix hbuf (colname_clean 8)
        (by decide) ha (fun _ => colname_cr 8)
      simp only [VCF_tokenizer.set_terminator_and_inc_line_num_if_newline,
        VCF_tokenizer.set_terminator_byte,
        show (('\n' : Char) = '\n') = True by simp, if_true] at hprep
      rw [VCF_scanner.hdr_columns, hprep, hk]
      simp only [VCF_tokenizer.at_eol]
      simp only [show ((('\n').toNat : Int) = 10) = True by decide]
      simp only [Bool.true_eq_false, Bool.false_eq_true, dite_false,
        dite_true, not_false_eq_true, if_true, if_false, eq_self_iff_true,
        decide_True, Bool.true_or, ne_eq, not_true_eq_false,
        show (8 + 1 < number_of_mandatory_columns) = False by decide,
        show (8 + 1 > number_of_mandatory_columns) = True by decide]
      have hse : suffix.isEmpty = false := by
        cases suffix with
        | nil => exact absurd rfl hsuf
        | cons a l => rfl
      simp [VCF_scanner.hdr_end_of_header_line, VCF_tokenizer.buffer_is_empty,
        hse, VCF_scanner.reset_state_for_next_data_line]
  | succ m ih =>
      intro k sc suffix hk8 hk ha hbuf hsuf
      have hj : joinSep '\t' (header_line_columns_from k (m + 1 + 1)) =
          (get_header_line_column k).toList ++
            '\t' :: joinSep '\t' (header_line_columns_from (k + 1) (m + 1)) := by
        rfl
      rw [hj, List.append_assoc] at hbuf
      have hprep := prepare_clean sc.tokenizer VCF_tokenizer.newline_or_tab
        (get_header_line_column k).toList '\t'
        (joinSep '\t' (header_line_columns_from (k + 1) (m + 1)) ++ '\n' :: suffix)
        hbuf (colname_clean k) (by decide) ha (fun h => absurd h (by decide))
      simp only [VCF_tokenizer.set_terminator_and_inc_line_num_if_newline,
        VCF_tokenizer.set_terminator_byte,
        show (('\t' : Char) = '\n') = False by simp, if_false] at hprep
      rw [VCF_scanner.hdr_columns, hprep, hk]
      simp only [VCF_tokenizer.at_eol]
      simp only [show ((('\t').toNat : Int) = 10) = False by decide,
        show ((('\t').toNat : Int) = CharEOF) = False by decide]
      simp only [Bool.true_eq_false, Bool.false_eq_true, dite_false,
        dite_true, not_false_eq_true, if_true, if_false, eq_self_iff_true,
        decide_False, Bool.or_self, ne_eq, not_true_eq_false]
      rw [if_pos (show k + 1 ≤ number_of_mandatory_columns by
        simp only [number_of_mandatory_columns] at hk8 ⊢; omega)]
      exact ih (k + 1)
        { sc with
          tokenizer :=
            ⟨joinSep '\t' (header_line_columns_from (k + 1) (m + 1)) ++ '\n' :: suffix,
              sc.tokenizer.eof_reached, sc.tokenizer.accumulating,
              sc.tokenizer.accumulator, (get_header_line_column k).toList,
              (('\t').toNat : Int), sc.tokenizer.line_number⟩
          header_line_column_ok := k + 1 }
        suffix (by simp only [number_of_mandatory_columns] at hk8 ⊢; omega)
        rfl ha rfl hsuf

/-- The `parsing_header_line_columns` loop on the remaining mandatory
columns, then `FORMAT`, then one or more sample IDs. -/
theorem hdr_columns_format_samples (n : Nat) :
    ∀ (k : Nat) (sc : VCF_scanner) (samples : List (List Char))
      (suffix : List Char),
      k + n = number_of_mandatory_columns →
      sc.header_line_column_ok = k →
      sc.tokenizer.accumulating = false →
      sc.tokenizer.buf =
        joinTabs (header_line_columns_from k (n + 1)) ++
          joinSep '\t' samples ++ '\n' :: suffix →
      samples ≠ [] →
      (∀ t ∈ samples, ∀ c ∈ t, VCF_tokenizer.newline_or_tab c = false) →
      (∀ t ∈ samples, t.getLast? ≠ some '\r') →
      suffix ≠ [] →
      (VCF_scanner.hdr_columns sc).1 = .ok ∧
      (VCF_scanner.hdr_columns sc).2.genotype_info_present = true ∧
      (VCF_scanner.hdr_columns sc).2.sample_ids = sc.sample_ids ++ samples ∧
      (VCF_scanner.hdr_columns sc).2.state = parsing_chrom := by
  induction n with
  | zero =>
      intro k sc samples suffix hk8 hk ha hbuf hsam hcl hcr hsuf
      have hk8' : k = 8 := by
        simp only [number_of_mandatory_columns] at hk8
        omega
      subst hk8'
      rw [show joinTabs (header_line_columns_from 8 1) =
          (get_header_line_column 8).toList ++ ['\t'] from rfl,
        List.append_assoc] at hbuf
      have hprep := prepare_clean sc.tokenizer VCF_tokenizer.newline_or_tab
        (get_header_line_column 8).toList '\t'
        (joinSep '\t' samples ++ '\n' :: suffix)
        (by simpa using hbuf) (colname_clean 8) (by decide) ha
        (fun h => absurd h (by decide))
      simp only [VCF_tokenizer.set_terminator_and_inc_line_num_if_newline,
        VCF_tokenizer.set_terminator_byte,
        show (('\t' : Char) = '\n') = False by simp, if_false] at hprep
      rw [VCF_scanner.hdr_columns, hprep, hk]
      simp only [VCF_tokenizer.at_eol]
      simp only [show ((('\t').toNat : Int) = 10) = False by decide,
        show ((('\t').toNat : Int) = CharEOF) = False by decide]
      simp only [Bool.true_eq_false, Bool.false_eq_true, dite_false,
        dite_true, not_false_eq_true, if_true, if_false, eq_self_iff_true,
        decide_False, Bool.or_self, ne_eq, not_true_eq_false]
      rw [if_neg (show ¬(8 + 1 ≤ number_of_mandatory_columns) by decide)]
      have hrun := hdr_sample_ids_run samples
        { sc with
          tokenizer :=
            ⟨joinSep '\t' samples ++ '\n' :: suffix,
              sc.tokenizer.eof_reached, sc.tokenizer.accumulating,
              sc.tokenizer.accumulator, (get_header_line_column 8).toList,
              (('\t').toNat : Int), sc.tokenizer.line_number⟩
          header_line_column_ok := 8 + 1
          genotype_info_present := true
          state := parsing_sample_ids }
        suffix ha rfl hsam hcl hcr hsuf
      exact ⟨hrun.1, by rw [hrun.2.2.1], by rw [hrun.2.1], hrun.2.2.2⟩
  | succ m ih =>
      intro k sc samples suffix hk8 hk ha hbuf hsam hcl hcr hsuf
      have hj : joinTabs (header_line_columns_from k (m + 1 + 1)) =
          (get_header_line_column k).toList ++
            '\t' :: joinTabs (header_line_columns_from (k + 1) (m + 1)) := by
        rfl
      rw [hj, List.append_assoc] at hbuf
      have hprep := prepare_clean sc.tokenizer VCF_tokenizer.newline_or_tab
        (get_header_line_column k).toList '\t'
        (joinTabs (header_line_columns_from (k + 1) (m + 1)) ++
          (joinSep '\t' samples ++ '\n' :: suffix))
        (by simpa [List.append_assoc] using hbuf) (colname_clean k) (by decide) ha (fun h => absurd h (by decide))
      simp only [VCF_tokenizer.set_terminator_and_inc_line_num_if_newline,
        VCF_tokenizer.set_terminator_byte,
        show (('\t' : Char) = '\n') = False by simp, if_false] at hprep
      rw [VCF_scanner.hdr_columns, hprep, hk]
      simp only [VCF_tokenizer.at_eol]
      simp only [show ((('\t').toNat : Int) = 10) = False by decide,
        show ((('\t').toNat : Int) = CharEOF) = False by decide]
      simp only [Bool.true_eq_false, Bool.false_eq_true, dite_false,
        dite_true, not_false_eq_true, if_true, if_false, eq_self_iff_true,
        decide_False, Bool.or_self, ne_eq, not_true_eq_false]
      rw [if_pos (show k + 1 ≤ number_of_mandatory_columns by
        simp only [number_of_mandatory_columns] at hk8 ⊢; omega)]
      exact ih (k + 1)
        { sc with
          tokenizer :=
            ⟨joinTabs (header_line_columns_from (k + 1) (m + 1)) ++
              (joinSep '\t' samples ++ '\n' :: suffix),
              sc.tokenizer.eof_reached, sc.tokenizer.accumulating,
              sc.tokenizer.accumulator, (get_header_line_column k).toList,
              (('\t').toNat : Int), sc.tokenizer.line_number⟩
          header_line_column_ok := k + 1 }
        samples suffix (by simp only [number_of_mandatory_columns] at hk8 ⊢; omega)
        rfl ha (by simp) hsam hcl hcr hsuf

/-- A header-line column token that differs from the expected mandatory
column name. -/
theorem hdr_columns_mismatch (sc : VCF_scanner) (T : List Char) (d : Char)
    (rest : List Char)
    (hbuf : sc.tokenizer.buf = T ++ d :: rest)
    (hT : ∀ c ∈ T, VCF_tokenizer.newline_or_tab c = false)
    (hd : VCF_tokenizer.newline_or_tab d = true)
    (hcr : d = '\n' → T.getLast? ≠ some '\r')
    (ha : sc.tokenizer.accumulating = false)
    (hne : T ≠ (get_header_line_column sc.header_line_column_ok).toList) :
    (VCF_scanner.hdr_columns sc).1 = .error ∧
    (VCF_scanner.hdr_columns sc).2.get_error = "Malformed VCF header line" := by
  have hprep := prepare_clean sc.tokenizer VCF_tokenizer.newline_or_tab
    T d rest hbuf hT hd ha hcr
  rw [VCF_scanner.hdr_columns, hprep]
  have hne2 : T ≠ (get_header_line_column sc.header_line_column_ok).data := hne
  simp [VCF_scanner.invalid_header_line_error, VCF_scanner.header_error,
    VCF_scanner.get_error, hne2]

/-- A header line that ends at a correct column before all mandatory
columns have appeared. -/
theorem hdr_columns_early_eol (sc : VCF_scanner) (rest : List Char)
    (hk : sc.header_line_column_ok + 1 < number_of_mandatory_columns)
    (ha : sc.tokenizer.accumulating = false)
    (hbuf : sc.tokenizer.buf =
      (get_header_line_column sc.header_line_column_ok).toList ++ '\n' :: rest) :
    (VCF_scanner.hdr_columns sc).1 = .error ∧
    (VCF_scanner.hdr_columns sc).2.get_error = "Malformed VCF header line" := by
  have hprep := prepare_clean sc.tokenizer VCF_tokenizer.newline_or_tab
    (get_header_line_column sc.header_line_column_ok).toList '\n' rest hbuf
    (colname_clean sc.header_line_column_ok) (by decide) ha
    (fun _ => colname_cr sc.header_line_column_ok)
  simp only [VCF_tokenizer.set_terminator_and_inc_line_num_if_newline,
    VCF_tokenizer.set_terminator_byte,
    show (('\n' : Char) = '\n') = True by simp, if_true] at hprep
  rw [VCF_scanner.hdr_columns, hprep]
  simp only [VCF_tokenizer.at_eol]
  simp only [show ((('\n').toNat : Int) = 10) = True by decide]
  simp only [Bool.true_eq_false, Bool.false_eq_true, dite_false,
    dite_true, not_false_eq_true, if_true, if_false, eq_self_iff_true,
    decide_True, Bool.true_or, ne_eq, not_true_eq_false]
  rw [if_pos hk]
  simp [VCF_scanner.invalid_header_line_error, VCF_scanner.header_error,
    VCF_scanner.get_error]

/-- C4: the header-line column machine consumes the remaining mandatory
column names in exact order.  If the line holds exactly the mandatory
columns, `has_genotype_info` stays `false` and no sample IDs are added; a
trailing `FORMAT` column sets `has_genotype_info` and every further
tab-separated token becomes a sample ID in order (possibly none); a
mismatching column token, or a line ending before all mandatory columns,
raises `Malformed VCF header line`. -/
theorem C4_header_line_columns :
    (∀ (k n : Nat) (sc : VCF_scanner) (suffix : List Char),
      k + n = number_of_mandatory_columns →
      0 < n →
      sc.header_line_column_ok = k →
      sc.tokenizer.accumulating = false →
      sc.genotype_info_present = false →
      sc.tokenizer.buf =
        joinSep '\t' (header_line_columns_from k n) ++ '\n' :: suffix →
      suffix ≠ [] →
      (VCF_scanner.hdr_columns sc).1 = .ok ∧
      VCF_scanner.has_genotype_info (VCF_scanner.hdr_columns sc).2 = false ∧
      (VCF_scanner.hdr_columns sc).2.sample_ids = sc.sample_ids) ∧
    (∀ (k n : Nat) (sc : VCF_scanner) (suffix : List Char),
      k + n = number_of_mandatory_columns →
      sc.header_line_column_ok = k →
      sc.tokenizer.accumulating = false →
      sc.tokenizer.buf =
        joinSep '\t' (header_line_columns_from k (n + 1)) ++ '\n' :: suffix →
      suffix ≠ [] →
      (VCF_scanner.hdr_columns sc).1 = .ok ∧
      VCF_scanner.has_genotype_info (VCF_scanner.hdr_columns sc).2 = true ∧
      (VCF_scanner.hdr_columns sc).2.sample_ids = sc.sample_ids) ∧
    (∀ (k n : Nat) (sc : VCF_scanner) (samples : List (List Char))
        (suffix : List Char),
      k + n = number_of_mandatory_columns →
      sc.header_line_column_ok = k →
      sc.tokenizer.accumulating = false →
      sc.tokenizer.buf =
        joinTabs (header_line_columns_from k (n + 1)) ++
          joinSep '\t' samples ++ '\n' :: suffix →
      samples ≠ [] →
      (∀ t ∈ samples, ∀ c ∈ t, VCF_tokenizer.newline_or_tab c = false) →
      (∀ t ∈ samples, t.getLast? ≠ some '\r') →
      suffix ≠ [] →
      (VCF_scanner.hdr_columns sc).1 = .ok ∧
      VCF_scanner.has_genotype_info (VCF_scanner.hdr_columns sc).2 = true ∧
      (VCF_scanner.hdr_columns sc).2.sample_ids = sc.sample_ids ++ samples) ∧
    (∀ (sc : VCF_scanner) (T : List Char) (d : Char) (rest : List Char),
      sc.tokenizer.buf = T ++ d :: rest →
      (∀ c ∈ T, VCF_tokenizer.newline_or_tab c = false) →
      VCF_tokenizer.newline_or_tab d = true →
      (d = '\n' → T.getLast? ≠ some '\r') →
      sc.tokenizer.accumulating = false →
      T ≠ (get_header_line_column sc.header_line_column_ok).toList →
      (VCF_scanner.hdr_columns sc).1 = .error ∧
      (VCF_scanner.hdr_columns sc).2.get_error = "Malformed VCF header line") ∧
    (∀ (sc : VCF_scanner) (rest : List Char),
      sc.header_line_column_ok + 1 < number_of_mandatory_columns →
      sc.tokenizer.accumulating = false →
      sc.tokenizer.buf =
        (get_header_line_column sc.header_line_column_ok).toList ++ '\n' :: rest →
      (VCF_scanner.hdr_columns sc).1 = .error ∧
      (VCF_scanner.hdr_columns sc).2.get_error = "Malformed VCF header line") := by
  refine ⟨?_, ?_, ?_, ?_, ?_⟩
  · intro k n sc suffix hk8 hpos hk ha hgi hbuf hsuf
    have h := hdr_columns_exact n k sc suffix hk8 hpos hk ha hbuf hsuf
    exact ⟨h.1, by rw [VCF_scanner.has_genotype_info, h.2.1, hgi], h.2.2.1⟩
  · intro k n sc suffix hk8 hk ha hbuf hsuf
    have h := hdr_columns_format_eol n k sc suffix hk8 hk ha hbuf hsuf
    exact ⟨h.1, by rw [VCF_scanner.has_genotype_info, h.2.1], h.2.2.1⟩
  · intro k n sc samples suffix hk8 hk ha hbuf hsam hcl hcr hsuf
    have h := hdr_columns_format_samples n k sc samples suffix hk8 hk ha hbuf
      hsam hcl hcr hsuf
    exact ⟨h.1, by rw [VCF_scanner.has_genotype_info, h.2.1], h.2.2.1⟩
  · intro sc T d rest hbuf hT hd hcr ha hne
    exact hdr_columns_mismatch sc T d rest hbuf hT hd hcr ha hne
  · intro sc rest hk ha hbuf
    exact hdr_columns_early_eol sc rest hk ha hbuf

/-- Witness for C4: a header line `…INFO⇥FORMAT⇥S1⇥S2` entered after
`#CHROM` sets `has_genotype_info` and collects the two sample IDs. -/
theorem C4_header_line_columns_witness :
    (VCF_scanner.hdr_columns
      { VCF_scanner.init with
        state := parsing_header_line_columns
        header_line_column_ok := 1
        tokenizer := { VCF_tokenizer.init with
          buf := joinTabs (header_line_columns_from 1 8) ++
            joinSep '\t' [['S', '1'], ['S', '2']] ++ '\n' :: ['z'] } }).1 = .ok ∧
    VCF_scanner.has_genotype_info
      (VCF_scanner.hdr_columns
        { VCF_scanner.init with
          state := parsing_header_line_columns
          header_line_column_ok := 1
          tokenizer := { VCF_tokenizer.init with
            buf := joinTabs (header_line_columns_from 1 8) ++
              joinSep '\t' [['S', '1'], ['S', '2']] ++ '\n' :: ['z'] } }).2 = true ∧
    (VCF_scanner.hdr_columns
      { VCF_scanner.init with
        state := parsing_header_line_columns
        header_line_column_ok := 1
        tokenizer := { VCF_tokenizer.init with
          buf := joinTabs (header_line_columns_from 1 8) ++
            joinSep '\t' [['S', '1'], ['S', '2']] ++ '\n' :: ['z'] } }).2.sample_ids =
      [['S', '1'], ['S', '2']] := by
  have h := C4_header_line_columns.2.2.1 1 7
    { VCF_scanner.init with
      state := parsing_header_line_columns
      header_line_column_ok := 1
      tokenizer := { VCF_tokenizer.init with
        buf := joinTabs (header_line_columns_from 1 8) ++
          joinSep '\t' [['S', '1'], ['S', '2']] ++ '\n' :: ['z'] } }
    [['S', '1'], ['S', '2']] ['z']
    (by decide) rfl rfl rfl (by decide) (by decide) (by decide) (by decide)
  exact ⟨h.1, h.2.1, by rw [h.2.2]; rfl⟩

/-! ### Claim C5: GT decoding -/

theorem parse_gt_digits_complete (ds : List Char) :
    ∀ (rest : List Char) (a : Nat),
      (∀ c ∈ ds, is_ascii_digit c = true) →
      valFrom a ds ≤ UINT_MAX →
      (∀ c, rest.head? = some c → is_ascii_digit c = false) →
      parse_gt_digits (ds ++ rest) a = some (valFrom a ds, rest) := by
  induction ds with
  | nil =>
      intro rest a _ _ hrest
      cases rest with
      | nil => simp [parse_gt_digits, valFrom]
      | cons c rs =>
          have hc := hrest c rfl
          rw [← digit?_eq_none_iff] at hc
          simp [parse_gt_digits, hc, valFrom]
  | cons d tl ih =>
      intro rest a hds hmax hrest
      have hd : is_ascii_digit d = true := hds d (by simp)
      have hdig : VCF_tokenizer.digit? d = some (d.toNat - 48) :=
        (digit?_eq_some_iff d).mpr hd
      have hstep : uint_step a d ≤ UINT_MAX := by
        calc uint_step a d ≤ valFrom (uint_step a d) tl := le_valFrom _ _
          _ = valFrom a (d :: tl) := (valFrom_cons a d tl).symm
          _ ≤ UINT_MAX := hmax
      have hnotrig : ¬(a > UINT_MAX / 10 ∨
          (a = UINT_MAX / 10 ∧ (d.toNat - 48) > UINT_MAX % 10)) := by
        simp only [is_ascii_digit, Bool.and_eq_true, decide_eq_true_eq] at hd
        unfold uint_step at hstep
        unfold UINT_MAX at hstep ⊢
        omega
      rw [List.cons_append]
      simp only [parse_gt_digits, hdig]
      rw [if_neg hnotrig]
      have ihh := ih rest (uint_step a d) (fun c hc => hds c (by simp [hc]))
        (by rwa [← valFrom_cons]) hrest
      simp only [uint_step] at ihh
      rw [ihh]
      simp [valFrom_cons, uint_step]

theorem parse_gt_digits_overflow_lem (ds : List Char) :
    ∀ (rest : List Char) (a : Nat),
      (∀ c ∈ ds, is_ascii_digit c = true) →
      a ≤ UINT_MAX →
      valFrom a ds > UINT_MAX →
      parse_gt_digits (ds ++ rest) a = none := by
  induction ds with
  | nil =>
      intro rest a _ ha hmax
      rw [valFrom_nil] at hmax
      omega
  | cons d tl ih =>
      intro rest a hds ha hmax
      have hd : is_ascii_digit d = true := hds d (by simp)
      have hdig : VCF_tokenizer.digit? d = some (d.toNat - 48) :=
        (digit?_eq_some_iff d).mpr hd
      rw [List.cons_append]
      simp only [parse_gt_digits, hdig]
      by_cases htrig : a > UINT_MAX / 10 ∨
          (a = UINT_MAX / 10 ∧ (d.toNat - 48) > UINT_MAX % 10)
      · rw [if_pos htrig]
      · rw [if_neg htrig]
        have hd9 : d.toNat - 48 ≤ 9 := by
          simp only [is_ascii_digit, Bool.and_eq_true, decide_eq_true_eq] at hd
          omega
        have hstep : uint_step a d ≤ UINT_MAX := by
          unfold uint_step
          unfold UINT_MAX at htrig ⊢
          omega
        rw [valFrom_cons] at hmax
        have ihh := ih rest (uint_step a d) (fun c hc => hds c (by simp [hc]))
          hstep hmax
        simp only [uint_step] at ihh
        exact ihh

theorem parse_gt_loop_dot (cs : List Char) (gt : List Int) (ph ap : Bool)
    (na : Nat) :
    parse_gt_loop ('.' :: cs) gt ph ap na =
      parse_gt_sep cs (gt ++ [-1]) ph ap na := by
  rw [parse_gt_loop]
  simp

theorem parse_gt_loop_invalid (cs : List Char) (gt : List Int) (ph ap : Bool)
    (na : Nat)
    (hdot : cs.headD '\x00' ≠ '.')
    (hdig : is_ascii_digit (cs.headD '\x00') = false) :
    parse_gt_loop cs gt ph ap na =
      (some "Invalid character in GT value", gt, ph) := by
  rw [parse_gt_loop, dif_neg hdot]
  rw [← digit?_eq_none_iff] at hdig
  split
  · rfl
  · rename_i d hsome
    rw [hdig] at hsome
    exact Option.noConfusion hsome

theorem parse_gt_loop_digits (ds cs : List Char) (gt : List Int) (ph ap : Bool)
    (na : Nat)
    (hne : ds ≠ [])
    (hds : ∀ c ∈ ds, is_ascii_digit c = true)
    (hcs : ∀ c, cs.head? = some c → is_ascii_digit c = false)
    (hmax : valFrom 0 ds ≤ UINT_MAX)
    (hbound : ¬(ap = true ∧ valFrom 0 ds > na)) :
    parse_gt_loop (ds ++ cs) gt ph ap na =
      parse_gt_sep cs (gt ++ [int_of_uint (valFrom 0 ds)]) ph ap na := by
  cases ds with
  | nil => exact absurd rfl hne
  | cons d tl =>
      have hd : is_ascii_digit d = true := hds d (by simp)
      have hdnd : d ≠ '.' := by
        intro h
        rw [h] at hd
        exact absurd hd (by decide)
      have hdig : VCF_tokenizer.digit? d = some (d.toNat - 48) :=
        (digit?_eq_some_iff d).mpr hd
      have hv : valFrom (d.toNat - 48) tl = valFrom 0 (d :: tl) := by
        rw [valFrom_cons]
        simp [uint_step]
      rw [List.cons_append, parse_gt_loop]
      rw [dif_neg (show ¬((d :: (tl ++ cs)).headD '\x00' = '.') by
        simpa using hdnd)]
      simp only [List.headD_cons, List.tail_cons, hdig]
      have hcomp := parse_gt_digits_complete tl cs (d.toNat - 48)
        (fun c hc => hds c (by simp [hc])) (by rw [hv]; exact hmax) hcs
      split
      · rename_i hnone
        rw [hdig] at hnone
        exact Option.noConfusion hnone
      · rename_i d1 hsome
        rw [hdig] at hsome
        injection hsome with hd1
        subst hd1
        split
        · rename_i hnone2
          rw [hcomp] at hnone2
          exact Option.noConfusion hnone2
        · rename_i allele rest hsome2
          rw [hcomp] at hsome2
          simp only [Option.some.injEq, Prod.mk.injEq] at hsome2
          obtain ⟨h1, h2⟩ := hsome2
          subst h1
          subst h2
          rw [hv]
          rw [if_neg hbound]

theorem parse_gt_loop_bound (ds cs : List Char) (gt : List Int) (ph ap : Bool)
    (na : Nat)
    (hne : ds ≠ [])
    (hds : ∀ c ∈ ds, is_ascii_digit c = true)
    (hcs : ∀ c, cs.head? = some c → is_ascii_digit c = false)
    (hmax : valFrom 0 ds ≤ UINT_MAX)
    (hbound : ap = true ∧ valFrom 0 ds > na) :
    parse_gt_loop (ds ++ cs) gt ph ap na =
      (some "Allele index exceeds the number of alleles",
        gt ++ [int_of_uint (valFrom 0 ds)], ph) := by
  cases ds with
  | nil => exact absurd rfl hne
  | cons d tl =>
      have hd : is_ascii_digit d = true := hds d (by simp)
      have hdnd : d ≠ '.' := by
        intro h
        rw [h] at hd
        exact absurd hd (by decide)
      have hdig : VCF_tokenizer.digit? d = some (d.toNat - 48) :=
        (digit?_eq_some_iff d).mpr hd
      have hv : valFrom (d.toNat - 48) tl = valFrom 0 (d :: tl) := by
        rw [valFrom_cons]
        simp [uint_step]
      rw [List.cons_append, parse_gt_loop]
      rw [dif_neg (show ¬((d :: (tl ++ cs)).headD '\x00' = '.') by
        simpa using hdnd)]
      simp only [List.headD_cons, List.tail_cons, hdig]
      have hcomp := parse_gt_digits_complete tl cs (d.toNat - 48)
        (fun c hc => hds c (by simp [hc])) (by rw [hv]; exact hmax) hcs
      split
      · rename_i hnone
        rw [hdig] at hnone
        exact Option.noConfusion hnone
      · rename_i d1 hsome
        rw [hdig] at hsome
        injection hsome with hd1
        subst hd1
        split
        · rename_i hnone2
          rw [hcomp] at hnone2
          exact Option.noConfusion hnone2
        · rename_i allele rest hsome2
          rw [hcomp] at hsome2
          simp only [Option.some.injEq, Prod.mk.injEq] at hsome2
          obtain ⟨h1, h2⟩ := hsome2
          subst h1
          subst h2
          rw [hv]
          rw [if_pos hbound]

theorem parse_gt_loop_overflow (ds cs : List Char) (gt : List Int)
    (ph ap : Bool) (na : Nat)
    (hne : ds ≠ [])
    (hds : ∀ c ∈ ds, is_ascii_digit c = true)
    (hmax : valFrom 0 ds > UINT_MAX) :
    parse_gt_loop (ds ++ cs) gt ph ap na =
      (some "Integer overflow in allele index", gt, ph) := by
  cases ds with
  | nil => exact absurd rfl hne
  | cons d tl =>
      have hd : is_ascii_digit d = true := hds d (by simp)
      have hdnd : d ≠ '.' := by
        intro h
        rw [h] at hd
        exact absurd hd (by decide)
      have hdig : VCF_tokenizer.digit? d = some (d.toNat - 48) :=
        (digit?_eq_some_iff d).mpr hd
      have hd9 : d.toNat - 48 ≤ 9 := by
        simp only [is_ascii_digit, Bool.and_eq_true, decide_eq_true_eq] at hd
        omega
      have hv : valFrom (d.toNat - 48) tl = valFrom 0 (d :: tl) := by
        rw [valFrom_cons]
        simp [uint_step]
      rw [List.cons_append, parse_gt_loop]
      rw [dif_neg (show ¬((d :: (tl ++ cs)).headD '\x00' = '.') by
        simpa using hdnd)]
      simp only [List.headD_cons, List.tail_cons, hdig]
      have hovf := parse_gt_digits_overflow_lem tl cs (d.toNat - 48)
        (fun c hc => hds c (by simp [hc]))
        (by unfold UINT_MAX; omega) (by rw [hv]; exact hmax)
      split
      · rename_i hnone
        rw [hdig] at hnone
        exact Option.noConfusion hnone
      · rename_i d1 hsome
        rw [hdig] at hsome
        injection hsome with hd1
        subst hd1
        split
        · rfl
        · rename_i allele rest hsome2
          rw [hovf] at hsome2
          exact Option.noConfusion hsome2

theorem parse_gt_sep_nil (gt : List Int) (ph ap : Bool) (na : Nat) :
    parse_gt_sep [] gt ph ap na = (none, gt, ph) := by
  rw [parse_gt_sep]

theorem parse_gt_sep_slash (cs : List Char) (gt : List Int) (ph ap : Bool)
    (na : Nat) :
    parse_gt_sep ('/' :: cs) gt ph ap na = parse_gt_loop cs gt false ap na := by
  rw [parse_gt_sep]
  simp

theorem parse_gt_sep_pipe (cs : List Char) (gt : List Int) (ph ap : Bool)
    (na : Nat) :
    parse_gt_sep ('|' :: cs) gt ph ap na = parse_gt_loop cs gt true ap na := by
  rw [parse_gt_sep]
  simp

theorem parse_gt_sep_other (c : Char) (cs : List Char) (gt : List Int)
    (ph ap : Bool) (na : Nat) (h1 : c ≠ '/') (h2 : c ≠ '|') :
    parse_gt_sep (c :: cs) gt ph ap na =
      (some "Invalid character in GT value", gt, ph) := by
  rw [parse_gt_sep]
  simp [h1, h2]

/-- Counterexample to C5: the GT allele `2147483648` fits in an unsigned
32-bit integer, so no overflow error is raised, but `gt.push_back((int)
allele)` wraps it to `-2147483648` instead of storing its integer value. -/
theorem C5_counterexample :
    (VCF_scanner.parse_gt
      { VCF_scanner.init with
        tokenizer := { VCF_tokenizer.init with
          token := ['2', '1', '4', '7', '4', '8', '3', '6', '4', '8'] } }).1 =
      none ∧
    VCF_scanner.get_gt
      (VCF_scanner.parse_gt
        { VCF_scanner.init with
          tokenizer := { VCF_tokenizer.init with
            token := ['2', '1', '4', '7', '4', '8', '3', '6', '4', '8'] } }).2 =
      [(-2147483648 : Int)] ∧
    VCF_scanner.get_gt
      (VCF_scanner.parse_gt
        { VCF_scanner.init with
          tokenizer := { VCF_tokenizer.init with
            token := ['2', '1', '4', '7', '4', '8', '3', '6', '4', '8'] } }).2 ≠
      [(2147483648 : Int)] := by
  have h := parse_gt_loop_digits
    ['2', '1', '4', '7', '4', '8', '3', '6', '4', '8'] [] [] false false 0
    (by decide) (by decide) (by intro c hc; simp at hc) (by decide) (by simp)
  rw [List.append_nil, parse_gt_sep_nil] at h
  have hval : int_of_uint
      (valFrom 0 ['2', '1', '4', '7', '4', '8', '3', '6', '4', '8']) =
      -2147483648 := by decide
  have hpf : VCF_scanner.init.phased_gt = false := rfl
  have hap : VCF_scanner.init.alleles_parsed = false := rfl
  have hal : VCF_scanner.init.alts.length = 0 := rfl
  refine ⟨?_, ?_, ?_⟩
  · simp [VCF_scanner.parse_gt, hpf, hap, hal, h]
  · simp [VCF_scanner.parse_gt, VCF_scanner.get_gt, hpf, hap, hal, h, hval]
  · simp [VCF_scanner.parse_gt, VCF_scanner.get_gt, hpf, hap, hal, h, hval]

/-- C5 (amended): `parse_gt` decodes each `.` allele as `-1` and each
decimal allele as its value cast through a 32-bit two's-complement wrap
(`int_of_uint`), in input order; `/` sets the phased flag false and `|`
sets it true, the last separator seen winning; the errors are: empty token
`Empty GT value`, unsigned-32 overflow `Integer overflow in allele index`,
an allele strictly greater than the ALT count once alleles are parsed
(equality accepted) `Allele index exceeds the number of alleles`, and any
other character `Invalid character in GT value`. -/
theorem C5_gt_decoding :
    (∀ sc : VCF_scanner, sc.tokenizer.token = [] →
      (VCF_scanner.parse_gt sc).1 = some "Empty GT value" ∧
      VCF_scanner.get_gt (VCF_scanner.parse_gt sc).2 = []) ∧
    (∀ sc : VCF_scanner, sc.tokenizer.token ≠ [] →
      (VCF_scanner.parse_gt sc).1 =
        (parse_gt_loop sc.tokenizer.token [] sc.phased_gt sc.alleles_parsed
          sc.alts.length).1 ∧
      VCF_scanner.get_gt (VCF_scanner.parse_gt sc).2 =
        (parse_gt_loop sc.tokenizer.token [] sc.phased_gt sc.alleles_parsed
          sc.alts.length).2.1 ∧
      VCF_scanner.is_phased_gt (VCF_scanner.parse_gt sc).2 =
        (parse_gt_loop sc.tokenizer.token [] sc.phased_gt sc.alleles_parsed
          sc.alts.length).2.2) ∧
    (∀ (cs : List Char) (gt : List Int) (ph ap : Bool) (na : Nat),
      parse_gt_loop ('.' :: cs) gt ph ap na =
        parse_gt_sep cs (gt ++ [-1]) ph ap na) ∧
    (∀ (ds cs : List Char) (gt : List Int) (ph ap : Bool) (na : Nat),
      ds ≠ [] →
      (∀ c ∈ ds, is_ascii_digit c = true) →
      (∀ c, cs.head? = some c → is_ascii_digit c = false) →
      valFrom 0 ds ≤ UINT_MAX →
      ¬(ap = true ∧ valFrom 0 ds > na) →
      parse_gt_loop (ds ++ cs) gt ph ap na =
        parse_gt_sep cs (gt ++ [int_of_uint (valFrom 0 ds)]) ph ap na) ∧
    (∀ (ds cs : List Char) (gt : List Int) (ph ap : Bool) (na : Nat),
      ds ≠ [] →
      (∀ c ∈ ds, is_ascii_digit c = true) →
      (∀ c, cs.head? = some c → is_ascii_digit c = false) →
      valFrom 0 ds ≤ UINT_MAX →
      ap = true ∧ valFrom 0 ds > na →
      parse_gt_loop (ds ++ cs) gt ph ap na =
        (some "Allele index exceeds the number of alleles",
          gt ++ [int_of_uint (valFrom 0 ds)], ph)) ∧
    (∀ (ds cs : List Char) (gt : List Int) (ph ap : Bool) (na : Nat),
      ds ≠ [] →
      (∀ c ∈ ds, is_ascii_digit c = true) →
      valFrom 0 ds > UINT_MAX →
      parse_gt_loop (ds ++ cs) gt ph ap na =
        (some "Integer overflow in allele index", gt, ph)) ∧
    (∀ (cs : List Char) (gt : List Int) (ph ap : Bool) (na : Nat),
      cs.headD '\x00' ≠ '.' →
      is_ascii_digit (cs.headD '\x00') = false →
      parse_gt_loop cs gt ph ap na =
        (some "Invalid character in GT value", gt, ph)) ∧
    (∀ (gt : List Int) (ph ap : Bool) (na : Nat),
      parse_gt_sep [] gt ph ap na = (none, gt, ph)) ∧
    (∀ (cs : List Char) (gt : List Int) (ph ap : Bool) (na : Nat),
      parse_gt_sep ('/' :: cs) gt ph ap na = parse_gt_loop cs gt false ap na ∧
      parse_gt_sep ('|' :: cs) gt ph ap na = parse_gt_loop cs gt true ap na) ∧
    (∀ (c : Char) (cs : List Char) (gt : List Int) (ph ap : Bool) (na : Nat),
      c ≠ '/' → c ≠ '|' →
      parse_gt_sep (c :: cs) gt ph ap na =
        (some "Invalid character in GT value", gt, ph)) := by
  refine ⟨?_, ?_, parse_gt_loop_dot, parse_gt_loop_digits, parse_gt_loop_bound,
    ?_, parse_gt_loop_invalid, parse_gt_sep_nil,
    fun cs gt ph ap na => ⟨parse_gt_sep_slash cs gt ph ap na,
      parse_gt_sep_pipe cs gt ph ap na⟩, parse_gt_sep_other⟩
  · intro sc hemp
    simp [VCF_scanner.parse_gt, hemp, VCF_scanner.get_gt]
  · intro sc hne
    have hlen : ¬(sc.tokenizer.token.length = 0) := by
      simpa [List.length_eq_zero] using hne
    simp [VCF_scanner.parse_gt, hlen, VCF_scanner.get_gt,
      VCF_scanner.is_phased_gt]
  · intro ds cs gt ph ap na hne hds hmax
    exact parse_gt_loop_overflow ds cs gt ph ap na hne hds hmax

/-- Witness for C5: the single-digit allele `2` with two ALT alleles is
accepted (equality with the ALT count raises no error) and decodes to `2`. -/
theorem C5_gt_decoding_witness :
    parse_gt_loop (['2'] ++ []) [] false true 2 =
      parse_gt_sep [] ([] ++ [int_of_uint (valFrom 0 ['2'])]) false true 2 ∧
    int_of_uint (valFrom 0 ['2']) = 2 := by
  refine ⟨C5_gt_decoding.2.2.2.1 ['2'] [] [] false true 2 (by decide) (by decide)
    (by intro c hc; simp at hc) (by decide) (by decide), by decide⟩

/-! ### Claim C1: chunking transparency -/

theorem set_term_inc_buf (tk : VCF_tokenizer) (c : Char) :
    (tk.set_terminator_and_inc_line_num_if_newline c).buf = tk.buf := by
  unfold VCF_tokenizer.set_terminator_and_inc_line_num_if_newline
    VCF_tokenizer.set_terminator_byte
  split <;> rfl

/-- Specification-side remaining stream after one token. -/
def spec_rest (cls : Char → Bool) (B : List Char) : List Char :=
  match VCF_tokenizer.find_char_from_set cls B with
  | some i => B.drop (i + 1)
  | none => []

theorem spec_rest_none (cls : Char → Bool) (B : List Char)
    (h : VCF_tokenizer.find_char_from_set cls B = none) :
    spec_rest cls B = [] := by
  rw [spec_rest, h]

